import Mathlib

/-!
Verification of the Time-Travel Trading core: the two recursive greedy
strategies (`strategies.py`), the move validator (`validator.py`), and the
orchestration success check (`main.py`).  Prices and cash are modelled as
exact rationals; Python floats `np.inf` / `-np.inf` used for the corrective
pair budget and minimum-profit threshold are modelled by dedicated types.
The recursive strategies are embedded with an explicit fuel argument equal
to the number of data rows, which strictly bounds the recursion depth of
the source functions; fuel-insensitivity is proved below.
-/

namespace Trading

/-- Commission rate from `config.py` (`COMMISSION_RATE = 0.01`). -/
def COMMISSION_RATE : ℚ := 1 / 100

/-- Buy multiplier from `config.py` (`BUY_COST_FACTOR = 1 + COMMISSION_RATE`). -/
def BUY_COST_FACTOR : ℚ := 1 + COMMISSION_RATE

/-- Sell multiplier from `config.py` (`SELL_REVENUE_FACTOR = 1 - COMMISSION_RATE`). -/
def SELL_REVENUE_FACTOR : ℚ := 1 - COMMISSION_RATE

/-- Volume fraction from `config.py` (`VOLUME_CONSTRAINT_FACTOR = 0.1`). -/
def VOLUME_CONSTRAINT_FACTOR : ℚ := 1 / 10

/-- Python `int(x)` / numpy `.astype(int)`: truncation toward zero. -/
def pyInt (q : ℚ) : ℤ := if 0 ≤ q then ⌊q⌋ else ⌈q⌉

/-- One cleaned market-data row (`data_preprocessor.py`): a stock's OHLCV
record for one day, plus the derived `Max_Quantity` column.  Dates are
abstracted as naturals ordered chronologically. -/
structure DayBar where
  Date : ℕ
  Stock : String
  Open : ℚ
  High : ℚ
  Low : ℚ
  Close : ℚ
  Volume : ℚ
  Max_Quantity : ℤ
deriving DecidableEq, Repr

/-- Default row used only to give `List.getD` a value; never reached. -/
def dfltBar : DayBar := ⟨0, "", 0, 0, 0, 0, 0, 0⟩

/-- One move tuple `(date, action, stock, quantity)`.  The date and quantity
fields are strings in the source; a field that would fail to parse is
modelled as `none`. -/
structure Move where
  date : Option ℕ
  action : String
  stock : String
  quantity : Option ℤ
deriving DecidableEq, Repr

/-- The `max_past_pairs` parameter: a float that is either `np.inf`
(the default) or a finite number. -/
inductive PairBudget where
  | inf : PairBudget
  | fin : ℤ → PairBudget
deriving DecidableEq, Repr

/-- `max_past_pairs - k` (`np.inf` minus a finite number stays `np.inf`). -/
def PairBudget.sub (b : PairBudget) (k : ℤ) : PairBudget :=
  match b with
  | .inf => .inf
  | .fin n => .fin (n - k)

/-- The test `len(moves) // 2 >= max_past_pairs`; false when the budget is
`np.inf`. -/
def PairBudget.leNat (b : PairBudget) (k : ℕ) : Bool :=
  match b with
  | .inf => false
  | .fin n => decide (n ≤ (k : ℤ))

/-- The `min_profit` parameter: a float that is either `-np.inf`
(the default) or a finite number. -/
inductive MinProfit where
  | negInf : MinProfit
  | val : ℚ → MinProfit
deriving DecidableEq, Repr

/-- The test `best_profit >= min_profit`; true when the threshold is
`-np.inf`. -/
def MinProfit.leB (mp : MinProfit) (p : ℚ) : Bool :=
  match mp with
  | .negInf => true
  | .val v => decide (v ≤ p)

/-- Affordability mask from `strategies.py` line 30/106:
`(Open * BUY_COST_FACTOR <= cash) | (Low * BUY_COST_FACTOR <= cash)`. -/
def afford (cash : ℚ) (b : DayBar) : Bool :=
  decide (b.Open * BUY_COST_FACTOR ≤ cash) || decide (b.Low * BUY_COST_FACTOR ≤ cash)

/-- `quantity_open = np.minimum(Max_Quantity, cash // (Open * BUY_COST_FACTOR))`
(float floor division). -/
def quantity_open (cash : ℚ) (b : DayBar) : ℚ :=
  min (b.Max_Quantity : ℚ) ((⌊cash / (b.Open * BUY_COST_FACTOR)⌋ : ℤ) : ℚ)

/-- `profit_open = quantity_open * (High * SELL_REVENUE_FACTOR - Open * BUY_COST_FACTOR)`. -/
def profit_open (cash : ℚ) (b : DayBar) : ℚ :=
  quantity_open cash b * (b.High * SELL_REVENUE_FACTOR - b.Open * BUY_COST_FACTOR)

/-- `quantity_low = np.minimum(Max_Quantity, cash // (Low * BUY_COST_FACTOR))`. -/
def quantity_low (cash : ℚ) (b : DayBar) : ℚ :=
  min (b.Max_Quantity : ℚ) ((⌊cash / (b.Low * BUY_COST_FACTOR)⌋ : ℤ) : ℚ)

/-- `profit_low = quantity_low * (Close * SELL_REVENUE_FACTOR - Low * BUY_COST_FACTOR)`. -/
def profit_low (cash : ℚ) (b : DayBar) : ℚ :=
  quantity_low cash b * (b.Close * SELL_REVENUE_FACTOR - b.Low * BUY_COST_FACTOR)

/-- Auxiliary scan for `np.argmax`: carries the next index, the best index
so far and the best value so far, updating only on a strictly greater
value (so the first maximum wins, as in numpy). -/
def argmaxGo : List ℚ → ℕ → ℕ → ℚ → ℕ
  | [], _, bi, _ => bi
  | v :: vs, i, bi, bv => if bv < v then argmaxGo vs (i + 1) i v else argmaxGo vs (i + 1) bi bv

/-- `np.argmax`: index of the first maximal element (0 on the empty list,
which the strategies never query). -/
def np_argmax : List ℚ → ℕ
  | [] => 0
  | v :: vs => argmaxGo vs 1 0 v

/-- The filtered affordable frame (`df[(Open*BCF <= cash) | (Low*BCF <= cash)]`). -/
def candidates (df : List DayBar) (cash : ℚ) : List DayBar :=
  df.filter (afford cash)

/-- The vectorized `max_profit_per_trade` column over a frame. -/
def profitsOf (df1 : List DayBar) (cash : ℚ) : List ℚ :=
  List.zipWith max (df1.map (profit_open cash)) (df1.map (profit_low cash))

/-- `best_profit_idx = np.argmax(max_profit_per_trade)`. -/
def bestIdx (df1 : List DayBar) (cash : ℚ) : ℕ :=
  np_argmax (profitsOf df1 cash)

/-- `best_profit = max_profit_per_trade[best_profit_idx]`. -/
def bestOf (df1 : List DayBar) (cash : ℚ) : ℚ :=
  (profitsOf df1 cash).getD (bestIdx df1 cash) 0

/-- `int(min(Max_Quantity, cash / (price * BUY_COST_FACTOR)))`: the executed
trade quantity. -/
def execQty (cash : ℚ) (mq : ℤ) (price : ℚ) : ℤ :=
  pyInt (min (mq : ℚ) (cash / (price * BUY_COST_FACTOR)))

/-- Fuel-indexed body of `greedy_trading_recursive` (`strategies.py` 11-76).
Each recursive call strictly shrinks the frame, so `df.length` fuel is
always enough; with zero fuel the frame is empty and the function returns
its state exactly as the source's base case does. -/
def greedyGo : ℕ → List DayBar → ℚ → List Move → ℚ × List Move
  | 0, _, cash, moves => (cash, moves)
  | fuel + 1, df, cash, moves =>
    let df1 := candidates df cash
    if df1 = [] then (cash, moves)
    else
      let bi := bestIdx df1 cash
      let best := bestOf df1 cash
      if best ≤ 0 then (cash, moves)
      else
        let row := df1.getD bi dfltBar
        if (df1.map (profit_low cash)).getD bi 0 < (df1.map (profit_open cash)).getD bi 0 then
          let q := execQty cash row.Max_Quantity row.Open
          let cost := (q : ℚ) * row.Open * BUY_COST_FACTOR
          let revenue := (q : ℚ) * row.High * SELL_REVENUE_FACTOR
          greedyGo fuel (df1.filter (fun b => decide (row.Date < b.Date))) (cash - cost + revenue)
            (moves ++ [⟨some row.Date, "buy-open", row.Stock, some q⟩,
                       ⟨some row.Date, "sell-high", row.Stock, some q⟩])
        else
          let q := execQty cash row.Max_Quantity row.Low
          let cost := (q : ℚ) * row.Low * BUY_COST_FACTOR
          let revenue := (q : ℚ) * row.Close * SELL_REVENUE_FACTOR
          greedyGo fuel (df1.filter (fun b => decide (row.Date < b.Date))) (cash - cost + revenue)
            (moves ++ [⟨some row.Date, "buy-low", row.Stock, some q⟩,
                       ⟨some row.Date, "sell-close", row.Stock, some q⟩])

/-- `greedy_trading_recursive(df, cash, moves)` from `strategies.py`. -/
def greedy_trading_recursive (df : List DayBar) (cash : ℚ) (moves : List Move) : ℚ × List Move :=
  greedyGo df.length df cash moves

/-- Fuel-indexed body of `extra_greedy_trading_recursive`
(`strategies.py` 79-195).  The corrective sub-search runs on the strictly
smaller frame `df[df.Date <= row.Date].drop(index=best_profit_idx)`,
realized here as `eraseIdx` before the date filter (the dropped row always
satisfies the filter, so the two orders agree). -/
def extraGo : ℕ → List DayBar → ℚ → List Move → Bool → PairBudget → MinProfit → ℚ × List Move
  | 0, _, cash, moves, _, _, _ => (cash, moves)
  | fuel + 1, df, cash, moves, past, mpp, mp =>
    if past && mpp.leNat (moves.length / 2) then (cash, moves)
    else
      let df1 := candidates df cash
      if df1 = [] then (cash, moves)
      else
        let bi := bestIdx df1 cash
        let best := bestOf df1 cash
        if best ≤ 0 then (cash, moves)
        else if past && !(mp.leB best) then (cash, moves)
        else
          let row := df1.getD bi dfltBar
          if (df1.map (profit_low cash)).getD bi 0 < (df1.map (profit_open cash)).getD bi 0 then
            let q := execQty cash row.Max_Quantity row.Open
            let cost := (q : ℚ) * row.Open * BUY_COST_FACTOR
            let revenue := (q : ℚ) * row.High * SELL_REVENUE_FACTOR
            let res1 := extraGo fuel ((df1.eraseIdx bi).filter (fun b => decide (b.Date ≤ row.Date)))
              (cash - cost) [] true (mpp.sub 1) mp
            let cash2 := res1.1 + revenue
            let moves2 := (moves ++ res1.2) ++
              [⟨some row.Date, "buy-open", row.Stock, some q⟩,
               ⟨some row.Date, "sell-high", row.Stock, some q⟩]
            let df2 := df1.filter (fun b => decide (row.Date < b.Date))
            if past then extraGo fuel df2 cash2 moves2 true (mpp.sub ((moves2.length / 2 : ℕ) : ℤ)) mp
            else extraGo fuel df2 cash2 moves2 false mpp mp
          else
            let q := execQty cash row.Max_Quantity row.Low
            let cost := (q : ℚ) * row.Low * BUY_COST_FACTOR
            let revenue := (q : ℚ) * row.Close * SELL_REVENUE_FACTOR
            let res1 := extraGo fuel ((df1.eraseIdx bi).filter (fun b => decide (b.Date ≤ row.Date)))
              (cash - cost) [] true (mpp.sub 1) mp
            let cash2 := res1.1 + revenue
            let moves2 := (moves ++ res1.2) ++
              [⟨some row.Date, "buy-low", row.Stock, some q⟩,
               ⟨some row.Date, "sell-close", row.Stock, some q⟩]
            let df2 := df1.filter (fun b => decide (row.Date < b.Date))
            if past then extraGo fuel df2 cash2 moves2 true (mpp.sub ((moves2.length / 2 : ℕ) : ℤ)) mp
            else extraGo fuel df2 cash2 moves2 false mpp mp

/-- `extra_greedy_trading_recursive(df, cash, moves, past, max_past_pairs,
min_profit)` from `strategies.py`. -/
def extra_greedy_trading_recursive (df : List DayBar) (cash : ℚ) (moves : List Move)
    (past : Bool) (mpp : PairBudget) (mp : MinProfit) : ℚ × List Move :=
  extraGo df.length df cash moves past mpp mp

/-- `stock_dict[stock]` followed by the per-date row selection
`df_stock.loc[df.Date == move_date]` with `row.iloc[0]`; `none` models both
the `KeyError` and the empty-selection failure. -/
def lookupRow (dict : List (String × List DayBar)) (stock : String) (d : ℕ) : Option DayBar :=
  match dict.lookup stock with
  | none => none
  | some df => (df.filter (fun b => b.Date == d)).head?

/-- Date-transition logic of `validate_moves` (validator.py 49-62): first
move initializes, a strictly later date settles revenue into cash, an
earlier date is a fatal chronology error (`none`), an equal date leaves
the state untouched. -/
def dateStep (init : ℚ) (cd : Option ℕ) (dc dr : ℚ) (md : ℕ) : Option (ℕ × ℚ × ℚ) :=
  match cd with
  | none => some (md, init, 0)
  | some c =>
    if c < md then some (md, dc + dr, 0)
    else if md < c then none
    else some (md, dc, dr)

/-- The per-move loop of `validate_moves` (validator.py 39-103), carried
out on explicit state `(current_date, daily_cash, daily_revenue)`. -/
def goV (dict : List (String × List DayBar)) (init : ℚ) :
    Option ℕ → ℚ → ℚ → List Move → ℚ
  | _, dc, dr, [] => dc + dr
  | cd, dc, dr, mv :: ms =>
    match mv.date, mv.quantity with
    | some md, some q =>
      match dateStep init cd dc dr md with
      | none => -1
      | some (c2, dc2, dr2) =>
        match lookupRow dict mv.stock md with
        | none => -1
        | some row =>
          if row.Max_Quantity < q then -1
          else if mv.action = "buy-low" then
            let cost := row.Low * BUY_COST_FACTOR * (q : ℚ)
            if dc2 < cost then -1 else goV dict init (some c2) (dc2 - cost) dr2 ms
          else if mv.action = "buy-open" then
            let cost := row.Open * BUY_COST_FACTOR * (q : ℚ)
            if dc2 < cost then -1 else goV dict init (some c2) (dc2 - cost) dr2 ms
          else if mv.action = "sell-close" then
            goV dict init (some c2) dc2 (dr2 + row.Close * SELL_REVENUE_FACTOR * (q : ℚ)) ms
          else if mv.action = "sell-high" then
            goV dict init (some c2) dc2 (dr2 + row.High * SELL_REVENUE_FACTOR * (q : ℚ)) ms
          else goV dict init (some c2) dc2 dr2 ms
    | _, _ => -1

/-- `validate_moves(initial_cash, moves, stock_dict)` from `validator.py`:
replays the move list from the unset-date state with `daily_cash = 0.0`,
returning the final `daily_cash + daily_revenue`, or `-1.0` on any
validation failure. -/
def validate_moves (initial_cash : ℚ) (moves : List Move)
    (stock_dict : List (String × List DayBar)) : ℚ :=
  goV stock_dict initial_cash none 0 0 moves

/-- The success criterion of `main.py` line 103:
`validated_cash != -1 and abs(final_cash - validated_cash) < 0.01`. -/
def validation_success (final_cash validated_cash : ℚ) : Bool :=
  decide (validated_cash ≠ -1) && decide (|final_cash - validated_cash| < 1 / 100)

/-- A bar as produced by `load_and_preprocess_data` (`data_preprocessor.py`):
positive OHLCV values, logical price ordering (`Low <= min(Open, Close, High)`,
`High >= max(Open, Close, Low)`), and the derived
`Max_Quantity = int(VOLUME_CONSTRAINT_FACTOR * Volume)` column. -/
def CleanBar (b : DayBar) : Prop :=
  0 < b.Open ∧ 0 < b.High ∧ 0 < b.Low ∧ 0 < b.Close ∧ 0 < b.Volume ∧
  b.Low ≤ b.Open ∧ b.Low ≤ b.Close ∧ b.Low ≤ b.High ∧
  b.Open ≤ b.High ∧ b.Close ≤ b.High ∧
  b.Max_Quantity = pyInt (VOLUME_CONSTRAINT_FACTOR * b.Volume)

instance : DecidablePred CleanBar := fun b => by unfold CleanBar; infer_instance

/-- A dataset of cleaned bars. -/
def Cleaned (df : List DayBar) : Prop := ∀ b ∈ df, CleanBar b

instance (df : List DayBar) : Decidable (Cleaned df) := List.decidableBAll _ df

/-- The validator's `stock_dict` holds the same market data the strategy
traded on: looking up any traded bar's stock and date returns exactly that
bar (per-stock frames have unique dates after cleaning). -/
def DataMatch (df : List DayBar) (dict : List (String × List DayBar)) : Prop :=
  ∀ b ∈ df, lookupRow dict b.Stock b.Date = some b

instance (df : List DayBar) (dict : List (String × List DayBar)) :
    Decidable (DataMatch df dict) := List.decidableBAll _ df

/-- Comparison of optional dates: non-decreasing whenever both parse. -/
def dleB : Option ℕ → Option ℕ → Bool
  | some x, some y => decide (x ≤ y)
  | _, _ => true

/-- Strict comparison of optional dates. -/
def dltB : Option ℕ → Option ℕ → Bool
  | some x, some y => decide (x < y)
  | _, _ => true

/-- A move list is chronologically well-formed when consecutive parsed
dates never decrease (the order the validator insists on). -/
def chronOKB : List Move → Bool
  | [] => true
  | [_] => true
  | a :: b :: rest => dleB a.date b.date && chronOKB (b :: rest)

/-- The move references a bar of the dataset (same stock and date) and its
quantity is a positive integer not exceeding that bar's `Max_Quantity`. -/
def moveFromB (df : List DayBar) (mv : Move) : Bool :=
  df.any (fun bar => (mv.date == some bar.Date) && (mv.stock == bar.Stock) &&
    (match mv.quantity with
     | some q => decide (0 < q) && decide (q ≤ bar.Max_Quantity)
     | none => false))

/-- A buy/sell leg pair of one round-trip trade on a bar of `df`: matching
stock, date and quantity, a legal quantity, one of the two trade variants,
and a strictly positive profit for the executed round trip. -/
def pairTradeOKB (df : List DayBar) (b s : Move) : Bool :=
  df.any (fun bar =>
    match b.quantity, s.quantity, b.date, s.date with
    | some q, some q2, some d, some d2 =>
      decide (0 < q) && decide (q ≤ bar.Max_Quantity) && (q == q2) &&
      (d == bar.Date) && (d2 == bar.Date) &&
      (b.stock == bar.Stock) && (s.stock == bar.Stock) &&
      (((b.action == "buy-open") && (s.action == "sell-high") &&
          decide (0 < (q : ℚ) * (bar.High * SELL_REVENUE_FACTOR - bar.Open * BUY_COST_FACTOR))) ||
       ((b.action == "buy-low") && (s.action == "sell-close") &&
          decide (0 < (q : ℚ) * (bar.Close * SELL_REVENUE_FACTOR - bar.Low * BUY_COST_FACTOR))))
    | _, _, _, _ => false)

/-- The move list is a sequence of buy/sell pairs over bars of `df`, each
pair individually profitable, with the date of each pair strictly below
every later move's date. -/
def tradeSeqB (df : List DayBar) : List Move → Bool
  | [] => true
  | [_] => false
  | b :: s :: rest =>
    pairTradeOKB df b s && rest.all (fun mv => dltB b.date mv.date) && tradeSeqB df rest

/-! ### Arithmetic helper lemmas -/

theorem BCF_pos : 0 < BUY_COST_FACTOR := by norm_num [BUY_COST_FACTOR, COMMISSION_RATE]

theorem SRF_pos : 0 < SELL_REVENUE_FACTOR := by norm_num [SELL_REVENUE_FACTOR, COMMISSION_RATE]

theorem pyInt_of_nonneg {q : ℚ} (h : 0 ≤ q) : pyInt q = ⌊q⌋ := by
  simp [pyInt, h]

theorem Int.floor_min_q (a b : ℚ) : ⌊min a b⌋ = min ⌊a⌋ ⌊b⌋ := by
  rcases le_total a b with h | h
  · rw [min_eq_left h, min_eq_left (Int.floor_le_floor h)]
  · rw [min_eq_right h, min_eq_right (Int.floor_le_floor h)]

/-- For nonnegative cash and a nonnegative volume cap, the executed integer
quantity agrees with the floor-division quantity used in the vectorized
profit columns. -/
theorem execQty_eq_min {cash : ℚ} {mq : ℤ} {price : ℚ} (hc : 0 ≤ cash) (hmq : 0 ≤ mq)
    (hp : 0 < price) : execQty cash mq price = min mq ⌊cash / (price * BUY_COST_FACTOR)⌋ := by
  have hpb : 0 < price * BUY_COST_FACTOR := mul_pos hp BCF_pos
  have hx : (0 : ℚ) ≤ cash / (price * BUY_COST_FACTOR) := div_nonneg hc hpb.le
  have hmin : (0 : ℚ) ≤ min (mq : ℚ) (cash / (price * BUY_COST_FACTOR)) :=
    le_min (by exact_mod_cast hmq) hx
  rw [execQty, pyInt_of_nonneg hmin, Int.floor_min_q, Int.floor_intCast]

theorem execQty_nonneg {cash : ℚ} {mq : ℤ} {price : ℚ} (hc : 0 ≤ cash) (hmq : 0 ≤ mq)
    (hp : 0 < price) : 0 ≤ execQty cash mq price := by
  rw [execQty_eq_min hc hmq hp]
  exact le_min hmq (Int.floor_nonneg.2 (div_nonneg hc (mul_pos hp BCF_pos).le))

theorem execQty_le_mq {cash : ℚ} {mq : ℤ} {price : ℚ} (hc : 0 ≤ cash) (hmq : 0 ≤ mq)
    (hp : 0 < price) : execQty cash mq price ≤ mq := by
  rw [execQty_eq_min hc hmq hp]; exact min_le_left _ _

/-- The executed cost never exceeds the available cash. -/
theorem execQty_cost_le {cash : ℚ} {mq : ℤ} {price : ℚ} (hc : 0 ≤ cash) (hp : 0 < price) :
    (execQty cash mq price : ℚ) * price * BUY_COST_FACTOR ≤ cash := by
  have hpb : 0 < price * BUY_COST_FACTOR := mul_pos hp BCF_pos
  have hx : (0 : ℚ) ≤ cash / (price * BUY_COST_FACTOR) := div_nonneg hc hpb.le
  have hq : (execQty cash mq price : ℚ) ≤ cash / (price * BUY_COST_FACTOR) := by
    rw [execQty]
    by_cases h : 0 ≤ min (mq : ℚ) (cash / (price * BUY_COST_FACTOR))
    · rw [pyInt_of_nonneg h]
      exact (Int.floor_le _).trans (min_le_right _ _)
    · push_neg at h
      rw [pyInt, if_neg (not_le.2 h)]
      have hceil : (⌈min (mq : ℚ) (cash / (price * BUY_COST_FACTOR))⌉ : ℚ) ≤ 0 := by
        exact_mod_cast Int.ceil_le.2 (show min (mq : ℚ) (cash / (price * BUY_COST_FACTOR)) ≤
          ((0 : ℤ) : ℚ) by exact_mod_cast h.le)
      linarith
  calc (execQty cash mq price : ℚ) * price * BUY_COST_FACTOR
      = (execQty cash mq price : ℚ) * (price * BUY_COST_FACTOR) := by ring
    _ ≤ cash / (price * BUY_COST_FACTOR) * (price * BUY_COST_FACTOR) :=
        mul_le_mul_of_nonneg_right hq hpb.le
    _ = cash := div_mul_cancel₀ cash hpb.ne'

/-! ### List and argmax lemmas -/

theorem length_filter_lt {α : Type} {l : List α} {p : α → Bool} {a : α}
    (ha : a ∈ l) (hpa : p a = false) : (l.filter p).length < l.length := by
  induction l with
  | nil => cases ha
  | cons x xs ih =>
    rcases List.mem_cons.1 ha with rfl | hmem
    · rw [List.filter_cons, hpa]
      simpa using Nat.lt_succ_of_le (List.length_filter_le p xs)
    · rw [List.filter_cons]
      split
      · simpa using Nat.succ_lt_succ (ih hmem)
      · exact (ih hmem).trans (Nat.lt_succ_self _)

theorem argmaxGo_lt (l : List ℚ) : ∀ i bi bv, bi < i → argmaxGo l i bi bv < i + l.length := by
  induction l with
  | nil =>
    intro i bi bv h
    simpa [argmaxGo] using lt_of_lt_of_le h (by omega)
  | cons v vs ih =>
    intro i bi bv h
    rw [argmaxGo]
    simp only [List.length_cons]
    split
    · exact (ih (i + 1) i v (by omega)).trans_le (by omega)
    · exact (ih (i + 1) bi bv (by omega)).trans_le (by omega)

theorem np_argmax_lt {l : List ℚ} (h : l ≠ []) : np_argmax l < l.length := by
  cases l with
  | nil => exact absurd rfl h
  | cons v vs =>
    have := argmaxGo_lt vs 1 0 v (by omega)
    simpa [np_argmax, Nat.add_comm] using this

theorem length_profitsOf (df1 : List DayBar) (cash : ℚ) :
    (profitsOf df1 cash).length = df1.length := by
  simp [profitsOf]

theorem bestIdx_lt {df1 : List DayBar} (cash : ℚ) (h : df1 ≠ []) :
    bestIdx df1 cash < df1.length := by
  have hne : profitsOf df1 cash ≠ [] := by
    intro he
    exact h (List.length_eq_zero.1 (by rw [← length_profitsOf df1 cash, he, List.length_nil]))
  have := np_argmax_lt hne
  rwa [length_profitsOf] at this

theorem getD_mem {α : Type} {l : List α} {i : ℕ} (h : i < l.length) (d : α) :
    l.getD i d ∈ l := by
  rw [List.getD_eq_getElem _ _ h]
  exact List.getElem_mem h

theorem getD_map_q {α : Type} (f : α → ℚ) (l : List α) {i : ℕ} (h : i < l.length) (d : α) :
    (l.map f).getD i 0 = f (l.getD i d) := by
  rw [List.getD_eq_getElem _ _ (by simpa using h), List.getD_eq_getElem _ _ h, List.getElem_map]

theorem profitsOf_getD {df1 : List DayBar} {cash : ℚ} {i : ℕ} (h : i < df1.length) :
    (profitsOf df1 cash).getD i 0 =
      max (profit_open cash (df1.getD i dfltBar)) (profit_low cash (df1.getD i dfltBar)) := by
  rw [profitsOf, List.getD_eq_getElem _ _ (by simpa [List.length_zipWith] using h),
    List.getElem_zipWith, List.getElem_map, List.getElem_map, List.getD_eq_getElem _ _ h]

theorem mem_candidates {b : DayBar} {df : List DayBar} {cash : ℚ} :
    b ∈ candidates df cash ↔ b ∈ df ∧ afford cash b = true := List.mem_filter

theorem candidates_length_le (df : List DayBar) (cash : ℚ) :
    (candidates df cash).length ≤ df.length := List.length_filter_le _ _

theorem afford_cases {b : DayBar} {cash : ℚ} (h : afford cash b = true) :
    b.Open * BUY_COST_FACTOR ≤ cash ∨ b.Low * BUY_COST_FACTOR ≤ cash := by
  simpa [afford, Bool.or_eq_true, decide_eq_true_eq] using h

/-- If any bar is affordable under cleaned data, the cash is positive. -/
theorem cash_pos_of_candidates {df : List DayBar} {cash : ℚ} (hc : Cleaned df)
    (h : candidates df cash ≠ []) : 0 < cash := by
  obtain ⟨b, hb⟩ := List.exists_mem_of_ne_nil _ h
  obtain ⟨hbdf, hbaf⟩ := mem_candidates.1 hb
  obtain ⟨hO, _, hL, _⟩ := hc b hbdf
  rcases afford_cases hbaf with h1 | h1
  · nlinarith [BCF_pos]
  · nlinarith [BCF_pos]

theorem mq_nonneg {b : DayBar} (h : CleanBar b) : 0 ≤ b.Max_Quantity := by
  obtain ⟨_, _, _, _, hV, _, _, _, _, _, hmq⟩ := h
  have hx : (0 : ℚ) ≤ VOLUME_CONSTRAINT_FACTOR * b.Volume := by
    have : (0 : ℚ) < VOLUME_CONSTRAINT_FACTOR := by norm_num [VOLUME_CONSTRAINT_FACTOR]
    positivity
  rw [hmq, pyInt_of_nonneg hx]
  exact Int.floor_nonneg.2 hx

/-! ### Executed quantity vs. vectorized quantity -/

theorem execQty_cast_open {cash : ℚ} {b : DayBar} (hb : CleanBar b) (hc : 0 ≤ cash) :
    ((execQty cash b.Max_Quantity b.Open : ℤ) : ℚ) = quantity_open cash b := by
  rw [execQty_eq_min hc (mq_nonneg hb) hb.1, quantity_open]
  push_cast
  rfl

theorem execQty_cast_low {cash : ℚ} {b : DayBar} (hb : CleanBar b) (hc : 0 ≤ cash) :
    ((execQty cash b.Max_Quantity b.Low : ℤ) : ℚ) = quantity_low cash b := by
  rw [execQty_eq_min hc (mq_nonneg hb) hb.2.2.1, quantity_low]
  push_cast
  rfl

/-- The executed round trip realizes exactly the vectorized `profit_open`. -/
theorem exec_profit_open {cash : ℚ} {b : DayBar} (hb : CleanBar b) (hc : 0 ≤ cash) :
    (cash - (execQty cash b.Max_Quantity b.Open : ℚ) * b.Open * BUY_COST_FACTOR +
      (execQty cash b.Max_Quantity b.Open : ℚ) * b.High * SELL_REVENUE_FACTOR) =
    cash + profit_open cash b := by
  rw [execQty_cast_open hb hc, profit_open]
  ring

/-- The executed round trip realizes exactly the vectorized `profit_low`. -/
theorem exec_profit_low {cash : ℚ} {b : DayBar} (hb : CleanBar b) (hc : 0 ≤ cash) :
    (cash - (execQty cash b.Max_Quantity b.Low : ℚ) * b.Low * BUY_COST_FACTOR +
      (execQty cash b.Max_Quantity b.Low : ℚ) * b.Close * SELL_REVENUE_FACTOR) =
    cash + profit_low cash b := by
  rw [execQty_cast_low hb hc, profit_low]
  ring

theorem execQty_pos_open {cash : ℚ} {b : DayBar} (hb : CleanBar b) (hc : 0 ≤ cash)
    (hpos : 0 < profit_open cash b) : 0 < execQty cash b.Max_Quantity b.Open := by
  have hnn := execQty_nonneg hc (mq_nonneg hb) hb.1
  rcases hnn.lt_or_eq with h | h
  · exact h
  · exfalso
    have : quantity_open cash b = 0 := by rw [← execQty_cast_open hb hc, ← h]; norm_num
    rw [profit_open, this, zero_mul] at hpos
    exact lt_irrefl 0 hpos

theorem execQty_pos_low {cash : ℚ} {b : DayBar} (hb : CleanBar b) (hc : 0 ≤ cash)
    (hpos : 0 < profit_low cash b) : 0 < execQty cash b.Max_Quantity b.Low := by
  have hnn := execQty_nonneg hc (mq_nonneg hb) hb.2.2.1
  rcases hnn.lt_or_eq with h | h
  · exact h
  · exfalso
    have : quantity_low cash b = 0 := by rw [← execQty_cast_low hb hc, ← h]; norm_num
    rw [profit_low, this, zero_mul] at hpos
    exact lt_irrefl 0 hpos

/-! ### Move predicate lemmas -/

theorem moveFromB_elim {df : List DayBar} {mv : Move} (h : moveFromB df mv = true) :
    ∃ bar ∈ df, mv.date = some bar.Date ∧ mv.stock = bar.Stock ∧
      ∃ q, mv.quantity = some q ∧ 0 < q ∧ q ≤ bar.Max_Quantity := by
  rw [moveFromB, List.any_eq_true] at h
  obtain ⟨bar, hbar, hb⟩ := h
  cases hq : mv.quantity with
  | none => rw [hq] at hb; simp at hb
  | some q =>
    rw [hq] at hb
    simp only [Bool.and_eq_true, beq_iff_eq, decide_eq_true_eq] at hb
    exact ⟨bar, hbar, hb.1.1, hb.1.2, q, rfl, hb.2.1, hb.2.2⟩

theorem moveFromB_intro {df : List DayBar} {bar : DayBar} (hbar : bar ∈ df) {mv : Move}
    (hd : mv.date = some bar.Date) (hs : mv.stock = bar.Stock) {q : ℤ}
    (hq : mv.quantity = some q) (h0 : 0 < q) (hle : q ≤ bar.Max_Quantity) :
    moveFromB df mv = true := by
  rw [moveFromB, List.any_eq_true]
  refine ⟨bar, hbar, ?_⟩
  rw [hq]
  simp [hd, hs, h0, hle]

theorem moveFromB_mono {df df' : List DayBar} {mv : Move} (hsub : ∀ x ∈ df', x ∈ df)
    (h : moveFromB df' mv = true) : moveFromB df mv = true := by
  rw [moveFromB, List.any_eq_true] at h ⊢
  obtain ⟨bar, hbar, hb⟩ := h
  exact ⟨bar, hsub bar hbar, hb⟩

theorem pairTradeOKB_mono {df df' : List DayBar} {b s : Move} (hsub : ∀ x ∈ df', x ∈ df)
    (h : pairTradeOKB df' b s = true) : pairTradeOKB df b s = true := by
  rw [pairTradeOKB, List.any_eq_true] at h ⊢
  obtain ⟨bar, hbar, hb⟩ := h
  exact ⟨bar, hsub bar hbar, hb⟩

theorem pairTradeOKB_intro_open {df : List DayBar} {row : DayBar} (hrow : row ∈ df) {q : ℤ}
    (h0 : 0 < q) (hle : q ≤ row.Max_Quantity)
    (hprofit : 0 < (q : ℚ) * (row.High * SELL_REVENUE_FACTOR - row.Open * BUY_COST_FACTOR)) :
    pairTradeOKB df ⟨some row.Date, "buy-open", row.Stock, some q⟩
      ⟨some row.Date, "sell-high", row.Stock, some q⟩ = true := by
  rw [pairTradeOKB, List.any_eq_true]
  exact ⟨row, hrow, by simp [h0, hle, hprofit]⟩

theorem pairTradeOKB_intro_low {df : List DayBar} {row : DayBar} (hrow : row ∈ df) {q : ℤ}
    (h0 : 0 < q) (hle : q ≤ row.Max_Quantity)
    (hprofit : 0 < (q : ℚ) * (row.Close * SELL_REVENUE_FACTOR - row.Low * BUY_COST_FACTOR)) :
    pairTradeOKB df ⟨some row.Date, "buy-low", row.Stock, some q⟩
      ⟨some row.Date, "sell-close", row.Stock, some q⟩ = true := by
  rw [pairTradeOKB, List.any_eq_true]
  exact ⟨row, hrow, by simp [h0, hle, hprofit]⟩

theorem tradeSeqB_mono {df df' : List DayBar} (hsub : ∀ x ∈ df', x ∈ df) :
    ∀ {l : List Move}, tradeSeqB df' l = true → tradeSeqB df l = true := by
  intro l
  induction l using tradeSeqB.induct df' with
  | case1 => intro h; exact h
  | case2 => intro h; rw [tradeSeqB] at h; exact absurd h (by simp)
  | case3 b s rest ih =>
    intro h
    rw [tradeSeqB] at h ⊢
    simp only [Bool.and_eq_true] at h ⊢
    exact ⟨⟨pairTradeOKB_mono hsub h.1.1, h.1.2⟩, ih h.2⟩

/-! ### Structural specification of the simple greedy strategy -/

/-- Core induction for `greedy_trading_recursive`: the result extends the
incoming move list with a sequence of same-day buy/sell pairs over bars of
the dataset, each pair strictly profitable, pair dates strictly increasing,
and the cash never decreases. -/
theorem greedyGo_spec : ∀ (fuel : ℕ) (df : List DayBar) (cash : ℚ) (m : List Move),
    df.length ≤ fuel → Cleaned df →
    ∃ new, (greedyGo fuel df cash m).2 = m ++ new ∧
      cash ≤ (greedyGo fuel df cash m).1 ∧
      tradeSeqB df new = true ∧
      ∀ mv ∈ new, moveFromB df mv = true := by
  intro fuel
  induction fuel with
  | zero =>
    intro df cash m _ _
    exact ⟨[], by simp [greedyGo], le_refl _, by simp [tradeSeqB], by simp⟩
  | succ f ih =>
    intro df cash m hlen hclean
    simp only [greedyGo]
    by_cases hdf : candidates df cash = []
    · rw [if_pos hdf]
      exact ⟨[], by simp, le_refl _, by simp [tradeSeqB], by simp⟩
    · rw [if_neg hdf]
      by_cases hbest : bestOf (candidates df cash) cash ≤ 0
      · rw [if_pos hbest]
        exact ⟨[], by simp, le_refl _, by simp [tradeSeqB], by simp⟩
      · rw [if_neg hbest]
        have hbi : bestIdx (candidates df cash) cash < (candidates df cash).length :=
          bestIdx_lt _ hdf
        set df1 := candidates df cash with hdf1
        set row := df1.getD (bestIdx df1 cash) dfltBar with hrowdef
        have hrow1 : row ∈ df1 := getD_mem hbi _
        have hrowdf : row ∈ df := (mem_candidates.1 hrow1).1
        have hcb : CleanBar row := hclean row hrowdf
        have hcash : 0 < cash := cash_pos_of_candidates hclean hdf
        have hbesteq : bestOf df1 cash = max (profit_open cash row) (profit_low cash row) := by
          rw [bestOf, profitsOf_getD hbi]
        have hmapl : (df1.map (profit_low cash)).getD (bestIdx df1 cash) 0 = profit_low cash row :=
          getD_map_q _ _ hbi dfltBar
        have hmapo : (df1.map (profit_open cash)).getD (bestIdx df1 cash) 0 = profit_open cash row :=
          getD_map_q _ _ hbi dfltBar
        rw [hmapl, hmapo]
        push_neg at hbest
        have hdf2len : (df1.filter (fun b => decide (row.Date < b.Date))).length ≤ f := by
          have h1 : (df1.filter (fun b => decide (row.Date < b.Date))).length < df1.length :=
            length_filter_lt hrow1 (by simp)
          have h2 := candidates_length_le df cash
          rw [← hdf1] at h2
          omega
        have hdf2sub : ∀ x ∈ df1.filter (fun b => decide (row.Date < b.Date)), x ∈ df :=
          fun x hx => (mem_candidates.1 (List.mem_of_mem_filter hx)).1
        have hdf2clean : Cleaned (df1.filter (fun b => decide (row.Date < b.Date))) :=
          fun b hb => hclean b (hdf2sub b hb)
        have hdf2dates : ∀ mv : Move,
            moveFromB (df1.filter (fun b => decide (row.Date < b.Date))) mv = true →
            dltB (some row.Date) mv.date = true := by
          intro mv hmv
          obtain ⟨bar, hbar, hd, _⟩ := moveFromB_elim hmv
          have hlt : decide (row.Date < bar.Date) = true := (List.mem_filter.1 hbar).2
          rw [hd, dltB]
          simpa using hlt
        by_cases hvar : profit_low cash row < profit_open cash row
        · rw [if_pos hvar]
          have hpo : 0 < profit_open cash row := by
            rw [hbesteq, max_eq_left hvar.le] at hbest
            exact hbest
          set q := execQty cash row.Max_Quantity row.Open with hqdef
          have hq0 : 0 < q := execQty_pos_open hcb hcash.le hpo
          have hqle : q ≤ row.Max_Quantity := execQty_le_mq hcash.le (mq_nonneg hcb) hcb.1
          have hpft : cash - (q : ℚ) * row.Open * BUY_COST_FACTOR +
              (q : ℚ) * row.High * SELL_REVENUE_FACTOR = cash + profit_open cash row :=
            exec_profit_open hcb hcash.le
          have hprofpair : (q : ℚ) * (row.High * SELL_REVENUE_FACTOR -
              row.Open * BUY_COST_FACTOR) = profit_open cash row := by
            rw [hqdef, execQty_cast_open hcb hcash.le, profit_open]
          obtain ⟨new2, h1, h2, h3, h4⟩ := ih (df1.filter (fun b => decide (row.Date < b.Date)))
            (cash - (q : ℚ) * row.Open * BUY_COST_FACTOR +
              (q : ℚ) * row.High * SELL_REVENUE_FACTOR)
            (m ++ [⟨some row.Date, "buy-open", row.Stock, some q⟩,
                   ⟨some row.Date, "sell-high", row.Stock, some q⟩]) hdf2len hdf2clean
          refine ⟨⟨some row.Date, "buy-open", row.Stock, some q⟩ ::
            ⟨some row.Date, "sell-high", row.Stock, some q⟩ :: new2, ?_, ?_, ?_, ?_⟩
          · rw [h1]; simp
          · refine le_trans ?_ h2
            linarith [hpft, hpo]
          · rw [tradeSeqB]
            simp only [Bool.and_eq_true, List.all_eq_true]
            refine ⟨⟨pairTradeOKB_intro_open hrowdf hq0 hqle (by rw [hprofpair]; exact hpo), ?_⟩,
              tradeSeqB_mono hdf2sub h3⟩
            intro mv hmv
            exact hdf2dates mv (h4 mv hmv)
          · intro mv hmv
            rcases List.mem_cons.1 hmv with rfl | hmv
            · exact moveFromB_intro hrowdf rfl rfl rfl hq0 hqle
            · rcases List.mem_cons.1 hmv with rfl | hmv
              · exact moveFromB_intro hrowdf rfl rfl rfl hq0 hqle
              · exact moveFromB_mono hdf2sub (h4 mv hmv)
        · rw [if_neg hvar]
          have hpl : 0 < profit_low cash row := by
            push_neg at hvar
            rw [hbesteq, max_eq_right hvar] at hbest
            exact hbest
          set q := execQty cash row.Max_Quantity row.Low with hqdef
          have hq0 : 0 < q := execQty_pos_low hcb hcash.le hpl
          have hqle : q ≤ row.Max_Quantity := execQty_le_mq hcash.le (mq_nonneg hcb) hcb.2.2.1
          have hpft : cash - (q : ℚ) * row.Low * BUY_COST_FACTOR +
              (q : ℚ) * row.Close * SELL_REVENUE_FACTOR = cash + profit_low cash row :=
            exec_profit_low hcb hcash.le
          have hprofpair : (q : ℚ) * (row.Close * SELL_REVENUE_FACTOR -
              row.Low * BUY_COST_FACTOR) = profit_low cash row := by
            rw [hqdef, execQty_cast_low hcb hcash.le, profit_low]
          obtain ⟨new2, h1, h2, h3, h4⟩ := ih (df1.filter (fun b => decide (row.Date < b.Date)))
            (cash - (q : ℚ) * row.Low * BUY_COST_FACTOR +
              (q : ℚ) * row.Close * SELL_REVENUE_FACTOR)
            (m ++ [⟨some row.Date, "buy-low", row.Stock, some q⟩,
                   ⟨some row.Date, "sell-close", row.Stock, some q⟩]) hdf2len hdf2clean
          refine ⟨⟨some row.Date, "buy-low", row.Stock, some q⟩ ::
            ⟨some row.Date, "sell-close", row.Stock, some q⟩ :: new2, ?_, ?_, ?_, ?_⟩
          · rw [h1]; simp
          · refine le_trans ?_ h2
            linarith [hpft, hpl]
          · rw [tradeSeqB]
            simp only [Bool.and_eq_true, List.all_eq_true]
            refine ⟨⟨pairTradeOKB_intro_low hrowdf hq0 hqle (by rw [hprofpair]; exact hpl), ?_⟩,
              tradeSeqB_mono hdf2sub h3⟩
            intro mv hmv
            exact hdf2dates mv (h4 mv hmv)
          · intro mv hmv
            rcases List.mem_cons.1 hmv with rfl | hmv
            · exact moveFromB_intro hrowdf rfl rfl rfl hq0 hqle
            · rcases List.mem_cons.1 hmv with rfl | hmv
              · exact moveFromB_intro hrowdf rfl rfl rfl hq0 hqle
              · exact moveFromB_mono hdf2sub (h4 mv hmv)

/-! ### Per-move specification of the lookback strategy -/

/-- Every move emitted by `extra_greedy_trading_recursive` (in any mode)
references a bar of its frame with a positive quantity within that bar's
`Max_Quantity`. -/
theorem extraGo_moves : ∀ (fuel : ℕ) (df : List DayBar) (cash : ℚ) (m : List Move)
    (past : Bool) (mpp : PairBudget) (mp : MinProfit),
    df.length ≤ fuel → Cleaned df →
    ∃ new, (extraGo fuel df cash m past mpp mp).2 = m ++ new ∧
      ∀ mv ∈ new, moveFromB df mv = true := by
  intro fuel
  induction fuel with
  | zero =>
    intro df cash m past mpp mp _ _
    exact ⟨[], by simp [extraGo], by simp⟩
  | succ f ih =>
    intro df cash m past mpp mp hlen hclean
    simp only [extraGo]
    by_cases hbudget : (past && mpp.leNat (m.length / 2)) = true
    · rw [if_pos hbudget]
      exact ⟨[], by simp, by simp⟩
    · rw [if_neg hbudget]
      by_cases hdf : candidates df cash = []
      · rw [if_pos hdf]
        exact ⟨[], by simp, by simp⟩
      · rw [if_neg hdf]
        by_cases hbest : bestOf (candidates df cash) cash ≤ 0
        · rw [if_pos hbest]
          exact ⟨[], by simp, by simp⟩
        · rw [if_neg hbest]
          by_cases hmp : (past && !(mp.leB (bestOf (candidates df cash) cash))) = true
          · rw [if_pos hmp]
            exact ⟨[], by simp, by simp⟩
          · rw [if_neg hmp]
            have hbi : bestIdx (candidates df cash) cash < (candidates df cash).length :=
              bestIdx_lt _ hdf
            set df1 := candidates df cash with hdf1
            set row := df1.getD (bestIdx df1 cash) dfltBar with hrowdef
            have hrow1 : row ∈ df1 := getD_mem hbi _
            have hrowdf : row ∈ df := (mem_candidates.1 hrow1).1
            have hcb : CleanBar row := hclean row hrowdf
            have hcash : 0 < cash := cash_pos_of_candidates hclean hdf
            have hbesteq : bestOf df1 cash = max (profit_open cash row) (profit_low cash row) := by
              rw [bestOf, profitsOf_getD hbi]
            have hmapl : (df1.map (profit_low cash)).getD (bestIdx df1 cash) 0 =
                profit_low cash row := getD_map_q _ _ hbi dfltBar
            have hmapo : (df1.map (profit_open cash)).getD (bestIdx df1 cash) 0 =
                profit_open cash row := getD_map_q _ _ hbi dfltBar
            rw [hmapl, hmapo]
            push_neg at hbest
            have hdf1len : df1.length ≤ f + 1 := by
              have := candidates_length_le df cash
              rw [← hdf1] at this
              omega
            have hplen : ((df1.eraseIdx (bestIdx df1 cash)).filter
                (fun b => decide (b.Date ≤ row.Date))).length ≤ f := by
              have h1 := List.length_filter_le (fun b => decide (b.Date ≤ row.Date))
                (df1.eraseIdx (bestIdx df1 cash))
              have h2 : (df1.eraseIdx (bestIdx df1 cash)).length = df1.length - 1 :=
                List.length_eraseIdx_of_lt hbi
              omega
            have hpsub : ∀ x ∈ (df1.eraseIdx (bestIdx df1 cash)).filter
                (fun b => decide (b.Date ≤ row.Date)), x ∈ df := by
              intro x hx
              exact (mem_candidates.1 (List.mem_of_mem_eraseIdx
                (List.mem_of_mem_filter hx))).1
            have hpclean : Cleaned ((df1.eraseIdx (bestIdx df1 cash)).filter
                (fun b => decide (b.Date ≤ row.Date))) := fun b hb => hclean b (hpsub b hb)
            have hdf2len : (df1.filter (fun b => decide (row.Date < b.Date))).length ≤ f := by
              have h1 : (df1.filter (fun b => decide (row.Date < b.Date))).length < df1.length :=
                length_filter_lt hrow1 (by simp)
              omega
            have hdf2sub : ∀ x ∈ df1.filter (fun b => decide (row.Date < b.Date)), x ∈ df :=
              fun x hx => (mem_candidates.1 (List.mem_of_mem_filter hx)).1
            have hdf2clean : Cleaned (df1.filter (fun b => decide (row.Date < b.Date))) :=
              fun b hb => hclean b (hdf2sub b hb)
            by_cases hvar : profit_low cash row < profit_open cash row
            · rw [if_pos hvar]
              have hpo : 0 < profit_open cash row := by
                rw [hbesteq, max_eq_left hvar.le] at hbest
                exact hbest
              set q := execQty cash row.Max_Quantity row.Open with hqdef
              have hq0 : 0 < q := execQty_pos_open hcb hcash.le hpo
              have hqle : q ≤ row.Max_Quantity := execQty_le_mq hcash.le (mq_nonneg hcb) hcb.1
              obtain ⟨ib, hib1, hib2⟩ := ih ((df1.eraseIdx (bestIdx df1 cash)).filter
                  (fun b => decide (b.Date ≤ row.Date)))
                (cash - (q : ℚ) * row.Open * BUY_COST_FACTOR) [] true (mpp.sub 1) mp
                hplen hpclean

              rw [hib1]
              by_cases hpast : past = true
              · rw [if_pos hpast]
                obtain ⟨new2, hn1, hn2⟩ := ih (df1.filter (fun b => decide (row.Date < b.Date)))
                  _ _ true _ mp hdf2len hdf2clean
                rw [hn1]
                refine ⟨([] ++ ib) ++ [⟨some row.Date, "buy-open", row.Stock, some q⟩,
                  ⟨some row.Date, "sell-high", row.Stock, some q⟩] ++ new2, by simp, ?_⟩
                intro mv hmv
                simp only [List.nil_append, List.mem_append, List.mem_cons,
                  List.not_mem_nil, or_false] at hmv
                rcases hmv with (hmv | rfl | rfl) | hmv
                · exact moveFromB_mono hpsub (hib2 mv hmv)
                · exact moveFromB_intro hrowdf rfl rfl rfl hq0 hqle
                · exact moveFromB_intro hrowdf rfl rfl rfl hq0 hqle
                · exact moveFromB_mono hdf2sub (hn2 mv hmv)
              · rw [if_neg hpast]
                obtain ⟨new2, hn1, hn2⟩ := ih (df1.filter (fun b => decide (row.Date < b.Date)))
                  _ _ false mpp mp hdf2len hdf2clean
                rw [hn1]
                refine ⟨([] ++ ib) ++ [⟨some row.Date, "buy-open", row.Stock, some q⟩,
                  ⟨some row.Date, "sell-high", row.Stock, some q⟩] ++ new2, by simp, ?_⟩
                intro mv hmv
                simp only [List.nil_append, List.mem_append, List.mem_cons,
                  List.not_mem_nil, or_false] at hmv
                rcases hmv with (hmv | rfl | rfl) | hmv
                · exact moveFromB_mono hpsub (hib2 mv hmv)
                · exact moveFromB_intro hrowdf rfl rfl rfl hq0 hqle
                · exact moveFromB_intro hrowdf rfl rfl rfl hq0 hqle
                · exact moveFromB_mono hdf2sub (hn2 mv hmv)
            · rw [if_neg hvar]
              have hpl : 0 < profit_low cash row := by
                push_neg at hvar
                rw [hbesteq, max_eq_right hvar] at hbest
                exact hbest
              set q := execQty cash row.Max_Quantity row.Low with hqdef
              have hq0 : 0 < q := execQty_pos_low hcb hcash.le hpl
              have hqle : q ≤ row.Max_Quantity := execQty_le_mq hcash.le (mq_nonneg hcb) hcb.2.2.1
              obtain ⟨ib, hib1, hib2⟩ := ih ((df1.eraseIdx (bestIdx df1 cash)).filter
                  (fun b => decide (b.Date ≤ row.Date)))
                (cash - (q : ℚ) * row.Low * BUY_COST_FACTOR) [] true (mpp.sub 1) mp
                hplen hpclean
              rw [hib1]
              by_cases hpast : past = true
              · rw [if_pos hpast]
                obtain ⟨new2, hn1, hn2⟩ := ih (df1.filter (fun b => decide (row.Date < b.Date)))
                  _ _ true _ mp hdf2len hdf2clean
                rw [hn1]
                refine ⟨([] ++ ib) ++ [⟨some row.Date, "buy-low", row.Stock, some q⟩,
                  ⟨some row.Date, "sell-close", row.Stock, some q⟩] ++ new2, by simp, ?_⟩
                intro mv hmv
                simp only [List.nil_append, List.mem_append, List.mem_cons,
                  List.not_mem_nil, or_false] at hmv
                rcases hmv with (hmv | rfl | rfl) | hmv
                · exact moveFromB_mono hpsub (hib2 mv hmv)
                · exact moveFromB_intro hrowdf rfl rfl rfl hq0 hqle
                · exact moveFromB_intro hrowdf rfl rfl rfl hq0 hqle
                · exact moveFromB_mono hdf2sub (hn2 mv hmv)
              · rw [if_neg hpast]
                obtain ⟨new2, hn1, hn2⟩ := ih (df1.filter (fun b => decide (row.Date < b.Date)))
                  _ _ false mpp mp hdf2len hdf2clean
                rw [hn1]
                refine ⟨([] ++ ib) ++ [⟨some row.Date, "buy-low", row.Stock, some q⟩,
                  ⟨some row.Date, "sell-close", row.Stock, some q⟩] ++ new2, by simp, ?_⟩
                intro mv hmv
                simp only [List.nil_append, List.mem_append, List.mem_cons,
                  List.not_mem_nil, or_false] at hmv
                rcases hmv with (hmv | rfl | rfl) | hmv
                · exact moveFromB_mono hpsub (hib2 mv hmv)
                · exact moveFromB_intro hrowdf rfl rfl rfl hq0 hqle
                · exact moveFromB_intro hrowdf rfl rfl rfl hq0 hqle
                · exact moveFromB_mono hdf2sub (hn2 mv hmv)

/-! ### Budget-zero lookback equals the simple greedy strategy -/

/-- A corrective call whose pair budget is already negative returns its
state immediately (strategies.py line 103). -/
theorem extraGo_neg_budget (fuel : ℕ) (df : List DayBar) (cash : ℚ) (mp : MinProfit) :
    extraGo fuel df cash [] true (PairBudget.fin (-1)) mp = (cash, []) := by
  cases fuel with
  | zero => simp [extraGo]
  | succ f => simp [extraGo, PairBudget.leNat]

/-- With `max_past_pairs = 0` the forward search of the lookback strategy
computes exactly the simple greedy recursion: each corrective sub-search is
launched with budget `-1` and returns at once. -/
theorem extraGo_budget_zero_eq_greedyGo :
    ∀ (fuel : ℕ) (df : List DayBar) (cash : ℚ) (m : List Move) (mp : MinProfit),
    extraGo fuel df cash m false (PairBudget.fin 0) mp = greedyGo fuel df cash m := by
  intro fuel
  induction fuel with
  | zero => intro df cash m mp; rfl
  | succ f ih =>
    intro df cash m mp
    rw [extraGo, greedyGo]
    simp only [Bool.false_and, Bool.and_eq_true, if_neg (by simp : ¬ (false = true))]
    by_cases hdf : candidates df cash = []
    · rw [if_pos hdf, if_pos hdf]
    · rw [if_neg hdf, if_neg hdf]
      by_cases hbest : bestOf (candidates df cash) cash ≤ 0
      · rw [if_pos hbest, if_pos hbest]
      · rw [if_neg hbest, if_neg hbest]
        have hsub1 : (PairBudget.fin 0).sub 1 = PairBudget.fin (-1) := by
          simp [PairBudget.sub]
        by_cases hvar : ((candidates df cash).map (profit_low cash)).getD
            (bestIdx (candidates df cash) cash) 0 <
            ((candidates df cash).map (profit_open cash)).getD
            (bestIdx (candidates df cash) cash) 0
        · rw [if_pos hvar, if_pos hvar, hsub1, extraGo_neg_budget]
          simp only [List.append_nil]
          rw [ih]
        · rw [if_neg hvar, if_neg hvar, hsub1, extraGo_neg_budget]
          simp only [List.append_nil]
          rw [ih]

/-! ### Corrective pair-budget invariants -/

/-- Moves are always appended in buy/sell pairs: the parity of the move
list length is preserved by the lookback recursion. -/
theorem extraGo_parity : ∀ (fuel : ℕ) (df : List DayBar) (cash : ℚ) (m : List Move)
    (past : Bool) (mpp : PairBudget) (mp : MinProfit),
    (extraGo fuel df cash m past mpp mp).2.length % 2 = m.length % 2 := by
  intro fuel
  induction fuel with
  | zero => intro df cash m past mpp mp; rfl
  | succ f ih =>
    intro df cash m past mpp mp
    rw [extraGo]
    by_cases hbudget : (past && mpp.leNat (m.length / 2)) = true
    · rw [if_pos hbudget]
    · rw [if_neg hbudget]
      by_cases hdf : candidates df cash = []
      · rw [if_pos hdf]
      · rw [if_neg hdf]
        by_cases hbest : bestOf (candidates df cash) cash ≤ 0
        · rw [if_pos hbest]
        · rw [if_neg hbest]
          by_cases hmp : (past && !(mp.leB (bestOf (candidates df cash) cash))) = true
          · rw [if_pos hmp]
          · rw [if_neg hmp]
            by_cases hvar : ((candidates df cash).map (profit_low cash)).getD
                (bestIdx (candidates df cash) cash) 0 <
                ((candidates df cash).map (profit_open cash)).getD
                (bestIdx (candidates df cash) cash) 0
            · rw [if_pos hvar]
              by_cases hpast : past = true
              · rw [if_pos hpast, ih]
                simp only [List.length_append, List.length_cons, List.length_nil]
                rw [Nat.add_mod, Nat.add_mod m.length, ih]
                simp only [List.length_nil]
                omega
              · rw [if_neg hpast, ih]
                simp only [List.length_append, List.length_cons, List.length_nil]
                rw [Nat.add_mod, Nat.add_mod m.length, ih]
                simp only [List.length_nil]
                omega
            · rw [if_neg hvar]
              by_cases hpast : past = true
              · rw [if_pos hpast, ih]
                simp only [List.length_append, List.length_cons, List.length_nil]
                rw [Nat.add_mod, Nat.add_mod m.length, ih]
                simp only [List.length_nil]
                omega
              · rw [if_neg hpast, ih]
                simp only [List.length_append, List.length_cons, List.length_nil]
                rw [Nat.add_mod, Nat.add_mod m.length, ih]
                simp only [List.length_nil]
                omega

/-- A corrective call whose pair budget is exhausted
(`len(moves) // 2 >= max_past_pairs`) returns its state unchanged. -/
theorem extraGo_budget_stop (fuel : ℕ) (df : List DayBar) (cash : ℚ) (m : List Move)
    (mpp : PairBudget) (mp : MinProfit) (h : mpp.leNat (m.length / 2) = true) :
    extraGo fuel df cash m true mpp mp = (cash, m) := by
  cases fuel with
  | zero => rfl
  | succ f => rw [extraGo, if_pos (by rw [Bool.true_and]; exact h)]

/-- Budget ceiling: a corrective call with finite budget `n` and move list
`m` produces at most `m.length / 2 + max 0 n` total pairs. -/
theorem extraGo_pairs : ∀ (fuel : ℕ) (df : List DayBar) (cash : ℚ) (m : List Move)
    (n : ℤ) (mp : MinProfit),
    (((extraGo fuel df cash m true (PairBudget.fin n) mp).2.length / 2 : ℕ) : ℤ) ≤
      ((m.length / 2 : ℕ) : ℤ) + max 0 n := by
  intro fuel
  induction fuel with
  | zero =>
    intro df cash m n mp
    exact le_add_of_nonneg_right (le_max_left 0 n)
  | succ f ih =>
    intro df cash m n mp
    rw [extraGo]
    simp only [Bool.true_and]
    by_cases hbudget : (PairBudget.fin n).leNat (m.length / 2) = true
    · rw [if_pos hbudget]
      exact le_add_of_nonneg_right (le_max_left 0 n)
    · rw [if_neg hbudget]
      have hlt : ((m.length / 2 : ℕ) : ℤ) < n := by
        simpa [PairBudget.leNat] using hbudget
      have hn1 : (1 : ℤ) ≤ n := by omega
      have hmax : max 0 n = n := max_eq_right (by omega)
      rw [hmax]
      by_cases hdf : candidates df cash = []
      · rw [if_pos hdf]; exact le_add_of_nonneg_right (by omega)
      · rw [if_neg hdf]
        by_cases hbest : bestOf (candidates df cash) cash ≤ 0
        · rw [if_pos hbest]; exact le_add_of_nonneg_right (by omega)
        · rw [if_neg hbest]
          by_cases hmp : mp.leB (bestOf (candidates df cash) cash) = true
          · rw [if_neg (by simp [hmp])]
            set df1 := candidates df cash with hdf1
            set row := df1.getD (bestIdx df1 cash) dfltBar with hrowdef
            by_cases hvar : (df1.map (profit_low cash)).getD (bestIdx df1 cash) 0 <
                (df1.map (profit_open cash)).getD (bestIdx df1 cash) 0
            · rw [if_pos hvar]
              simp only [eq_self_iff_true, if_true, PairBudget.sub]
              set qv := execQty cash row.Max_Quantity row.Open with hqv
              set pastdf := (df1.eraseIdx (bestIdx df1 cash)).filter
                (fun b => decide (b.Date ≤ row.Date)) with hpastdf
              set ib := (extraGo f pastdf (cash - (qv : ℚ) * row.Open * BUY_COST_FACTOR)
                [] true (PairBudget.fin (n - 1)) mp).2 with hibdef
              have hibp : ib.length % 2 = 0 := by
                rw [hibdef]
                simpa using extraGo_parity f pastdf
                  (cash - (qv : ℚ) * row.Open * BUY_COST_FACTOR) [] true
                  (PairBudget.fin (n - 1)) mp
              have hib : ((ib.length / 2 : ℕ) : ℤ) ≤ max 0 (n - 1) := by
                rw [hibdef]
                simpa using ih pastdf (cash - (qv : ℚ) * row.Open * BUY_COST_FACTOR)
                  [] (n - 1) mp
              rw [max_eq_right (by omega : (0 : ℤ) ≤ n - 1)] at hib
              set m2 := (m ++ ib) ++ [(⟨some row.Date, "buy-open", row.Stock, some qv⟩ : Move),
                ⟨some row.Date, "sell-high", row.Stock, some qv⟩] with hm2
              have hm2len : m2.length = m.length + ib.length + 2 := by
                rw [hm2]; simp; omega
              have htail := ih (df1.filter (fun b => decide (row.Date < b.Date)))
                ((extraGo f pastdf (cash - (qv : ℚ) * row.Open * BUY_COST_FACTOR)
                  [] true (PairBudget.fin (n - 1)) mp).1 + (qv : ℚ) * row.High *
                  SELL_REVENUE_FACTOR)
                m2 (n - ((m2.length / 2 : ℕ) : ℤ)) mp
              rcases le_or_lt (n - ((m2.length / 2 : ℕ) : ℤ)) 0 with hc | hc
              · rw [max_eq_left hc] at htail
                omega
              · rw [max_eq_right hc.le] at htail
                omega
            · rw [if_neg hvar]
              simp only [eq_self_iff_true, if_true, PairBudget.sub]
              set qv := execQty cash row.Max_Quantity row.Low with hqv
              set pastdf := (df1.eraseIdx (bestIdx df1 cash)).filter
                (fun b => decide (b.Date ≤ row.Date)) with hpastdf
              set ib := (extraGo f pastdf (cash - (qv : ℚ) * row.Low * BUY_COST_FACTOR)
                [] true (PairBudget.fin (n - 1)) mp).2 with hibdef
              have hibp : ib.length % 2 = 0 := by
                rw [hibdef]
                simpa using extraGo_parity f pastdf
                  (cash - (qv : ℚ) * row.Low * BUY_COST_FACTOR) [] true
                  (PairBudget.fin (n - 1)) mp
              have hib : ((ib.length / 2 : ℕ) : ℤ) ≤ max 0 (n - 1) := by
                rw [hibdef]
                simpa using ih pastdf (cash - (qv : ℚ) * row.Low * BUY_COST_FACTOR)
                  [] (n - 1) mp
              rw [max_eq_right (by omega : (0 : ℤ) ≤ n - 1)] at hib
              set m2 := (m ++ ib) ++ [(⟨some row.Date, "buy-low", row.Stock, some qv⟩ : Move),
                ⟨some row.Date, "sell-close", row.Stock, some qv⟩] with hm2
              have hm2len : m2.length = m.length + ib.length + 2 := by
                rw [hm2]; simp; omega
              have htail := ih (df1.filter (fun b => decide (row.Date < b.Date)))
                ((extraGo f pastdf (cash - (qv : ℚ) * row.Low * BUY_COST_FACTOR)
                  [] true (PairBudget.fin (n - 1)) mp).1 + (qv : ℚ) * row.Close *
                  SELL_REVENUE_FACTOR)
                m2 (n - ((m2.length / 2 : ℕ) : ℤ)) mp
              rcases le_or_lt (n - ((m2.length / 2 : ℕ) : ℤ)) 0 with hc | hc
              · rw [max_eq_left hc] at htail
                omega
              · rw [max_eq_right hc.le] at htail
                omega
          · rw [if_pos (by simp [hmp])]
            exact le_add_of_nonneg_right (by omega)

/-! ### Replay simulation: the validator reproduces the strategies' cash -/

/-- Cash the validator will have available once the next (strictly later)
day settles: `initial_cash` before the first move, `daily_cash +
daily_revenue` afterwards. -/
def avail (init : ℚ) : Option ℕ → ℚ → ℚ → ℚ
  | none, _, _ => init
  | some _, dc, dr => dc + dr

theorem dateStep_self (init : ℚ) (d : ℕ) (dc dr : ℚ) :
    dateStep init (some d) dc dr d = some (d, dc, dr) := by
  simp [dateStep]

theorem dateStep_none (init : ℚ) (dc dr : ℚ) (d : ℕ) :
    dateStep init none dc dr d = some (d, init, 0) := rfl

theorem dateStep_settle (init : ℚ) {c d : ℕ} (dc dr : ℚ) (h : c < d) :
    dateStep init (some c) dc dr d = some (d, dc + dr, 0) := by
  simp [dateStep, h]

/-- Replaying one buy-open/sell-high pair through the validator loop. -/
theorem goV_pair_open {dict : List (String × List DayBar)} {init : ℚ}
    {cd : Option ℕ} {dc dr : ℚ} {row : DayBar} {q : ℤ} {dc2 dr2 : ℚ}
    (hds : dateStep init cd dc dr row.Date = some (row.Date, dc2, dr2))
    (hl : lookupRow dict row.Stock row.Date = some row)
    (hq : q ≤ row.Max_Quantity)
    (hcost : row.Open * BUY_COST_FACTOR * (q : ℚ) ≤ dc2) (rest : List Move) :
    goV dict init cd dc dr
      (⟨some row.Date, "buy-open", row.Stock, some q⟩ ::
        ⟨some row.Date, "sell-high", row.Stock, some q⟩ :: rest) =
    goV dict init (some row.Date) (dc2 - row.Open * BUY_COST_FACTOR * (q : ℚ))
      (dr2 + row.High * SELL_REVENUE_FACTOR * (q : ℚ)) rest := by
  rw [goV]
  simp only [hds, hl]
  rw [if_neg (not_lt.2 hq)]
  rw [if_neg (by decide : ¬ ("buy-open" = "buy-low")), if_pos trivial,
    if_neg (not_lt.2 hcost)]
  rw [goV]
  simp only [dateStep_self, hl]
  rw [if_neg (not_lt.2 hq)]
  rw [if_neg (by decide : ¬ ("sell-high" = "buy-low")),
    if_neg (by decide : ¬ ("sell-high" = "buy-open")),
    if_neg (by decide : ¬ ("sell-high" = "sell-close")), if_pos trivial]

/-- Replaying one buy-low/sell-close pair through the validator loop. -/
theorem goV_pair_low {dict : List (String × List DayBar)} {init : ℚ}
    {cd : Option ℕ} {dc dr : ℚ} {row : DayBar} {q : ℤ} {dc2 dr2 : ℚ}
    (hds : dateStep init cd dc dr row.Date = some (row.Date, dc2, dr2))
    (hl : lookupRow dict row.Stock row.Date = some row)
    (hq : q ≤ row.Max_Quantity)
    (hcost : row.Low * BUY_COST_FACTOR * (q : ℚ) ≤ dc2) (rest : List Move) :
    goV dict init cd dc dr
      (⟨some row.Date, "buy-low", row.Stock, some q⟩ ::
        ⟨some row.Date, "sell-close", row.Stock, some q⟩ :: rest) =
    goV dict init (some row.Date) (dc2 - row.Low * BUY_COST_FACTOR * (q : ℚ))
      (dr2 + row.Close * SELL_REVENUE_FACTOR * (q : ℚ)) rest := by
  rw [goV]
  simp only [hds, hl]
  rw [if_neg (not_lt.2 hq)]
  rw [if_pos trivial, if_neg (not_lt.2 hcost)]
  rw [goV]
  simp only [dateStep_self, hl]
  rw [if_neg (not_lt.2 hq)]
  rw [if_neg (by decide : ¬ ("sell-close" = "buy-low")),
    if_neg (by decide : ¬ ("sell-close" = "buy-open")), if_pos trivial]

/-- Replay simulation for the lookback strategy.  If the validator state
`(cd, dc, dr)` has every frame date strictly after `cd` and available cash
`cash + res` (the strategy's working cash plus the reserved cost `res` of
pending outer trades), then the moves the call emits replay through the
validator without failure, ending in a state with available cash
`final_cash + res`; moreover a nonempty emission leaves settled cash
covering the reservation and ends on an emitted trade date. -/
theorem extraGo_replay : ∀ (fuel : ℕ) (df : List DayBar) (cash : ℚ) (m : List Move)
    (past : Bool) (mpp : PairBudget) (mp : MinProfit)
    (dict : List (String × List DayBar)) (init : ℚ)
    (cd : Option ℕ) (dc dr : ℚ) (res : ℚ),
    df.length ≤ fuel → Cleaned df → DataMatch df dict →
    (∀ bar ∈ df, ∀ c, cd = some c → c < bar.Date) →
    0 ≤ res → avail init cd dc dr = cash + res →
    ∃ new cd2 dc2 dr2,
      (extraGo fuel df cash m past mpp mp).2 = m ++ new ∧
      cash ≤ (extraGo fuel df cash m past mpp mp).1 ∧
      (∀ rest, goV dict init cd dc dr (new ++ rest) = goV dict init cd2 dc2 dr2 rest) ∧
      avail init cd2 dc2 dr2 = (extraGo fuel df cash m past mpp mp).1 + res ∧
      ((new = [] ∧ cd2 = cd ∧ dc2 = dc ∧ dr2 = dr) ∨
       (new ≠ [] ∧ res ≤ dc2 ∧ ∃ t, cd2 = some t ∧ ∃ bar ∈ df, bar.Date = t)) := by
  intro fuel
  induction fuel with
  | zero =>
    intro df cash m past mpp mp dict init cd dc dr res _ _ _ _ _ havail
    exact ⟨[], cd, dc, dr, by simp [extraGo], le_refl _,
      fun rest => by rw [List.nil_append], havail, Or.inl ⟨rfl, rfl, rfl, rfl⟩⟩
  | succ f ih =>
    intro df cash m past mpp mp dict init cd dc dr res hlen hclean hdm hdates hres havail
    simp only [extraGo]
    by_cases hbudget : (past && mpp.leNat (m.length / 2)) = true
    · rw [if_pos hbudget]
      exact ⟨[], cd, dc, dr, by simp, le_refl _, fun rest => by rw [List.nil_append],
        havail, Or.inl ⟨rfl, rfl, rfl, rfl⟩⟩
    · rw [if_neg hbudget]
      by_cases hdf : candidates df cash = []
      · rw [if_pos hdf]
        exact ⟨[], cd, dc, dr, by simp, le_refl _, fun rest => by rw [List.nil_append],
          havail, Or.inl ⟨rfl, rfl, rfl, rfl⟩⟩
      · rw [if_neg hdf]
        by_cases hbest : bestOf (candidates df cash) cash ≤ 0
        · rw [if_pos hbest]
          exact ⟨[], cd, dc, dr, by simp, le_refl _, fun rest => by rw [List.nil_append],
            havail, Or.inl ⟨rfl, rfl, rfl, rfl⟩⟩
        · rw [if_neg hbest]
          by_cases hmp : (past && !(mp.leB (bestOf (candidates df cash) cash))) = true
          · rw [if_pos hmp]
            exact ⟨[], cd, dc, dr, by simp, le_refl _, fun rest => by rw [List.nil_append],
              havail, Or.inl ⟨rfl, rfl, rfl, rfl⟩⟩
          · rw [if_neg hmp]
            have hbi : bestIdx (candidates df cash) cash < (candidates df cash).length :=
              bestIdx_lt _ hdf
            set df1 := candidates df cash with hdf1
            set row := df1.getD (bestIdx df1 cash) dfltBar with hrowdef
            have hrow1 : row ∈ df1 := getD_mem hbi _
            have hrowdf : row ∈ df := (mem_candidates.1 hrow1).1
            have hcb : CleanBar row := hclean row hrowdf
            have hcash : 0 < cash := cash_pos_of_candidates hclean hdf
            have hbesteq : bestOf df1 cash = max (profit_open cash row) (profit_low cash row) := by
              rw [bestOf, profitsOf_getD hbi]
            have hmapl : (df1.map (profit_low cash)).getD (bestIdx df1 cash) 0 =
                profit_low cash row := getD_map_q _ _ hbi dfltBar
            have hmapo : (df1.map (profit_open cash)).getD (bestIdx df1 cash) 0 =
                profit_open cash row := getD_map_q _ _ hbi dfltBar
            rw [hmapl, hmapo]
            push_neg at hbest
            have hdf1len : df1.length ≤ f + 1 := by
              have := candidates_length_le df cash
              rw [← hdf1] at this
              omega
            have hplen : ((df1.eraseIdx (bestIdx df1 cash)).filter
                (fun b => decide (b.Date ≤ row.Date))).length ≤ f := by
              have h1 := List.length_filter_le (fun b => decide (b.Date ≤ row.Date))
                (df1.eraseIdx (bestIdx df1 cash))
              have h2 : (df1.eraseIdx (bestIdx df1 cash)).length = df1.length - 1 :=
                List.length_eraseIdx_of_lt hbi
              omega
            have hpsub : ∀ x ∈ (df1.eraseIdx (bestIdx df1 cash)).filter
                (fun b => decide (b.Date ≤ row.Date)), x ∈ df := by
              intro x hx
              exact (mem_candidates.1 (List.mem_of_mem_eraseIdx
                (List.mem_of_mem_filter hx))).1
            have hpclean : Cleaned ((df1.eraseIdx (bestIdx df1 cash)).filter
                (fun b => decide (b.Date ≤ row.Date))) := fun b hb => hclean b (hpsub b hb)
            have hpdm : DataMatch ((df1.eraseIdx (bestIdx df1 cash)).filter
                (fun b => decide (b.Date ≤ row.Date))) dict := fun b hb => hdm b (hpsub b hb)
            have hpdates : ∀ bar ∈ (df1.eraseIdx (bestIdx df1 cash)).filter
                (fun b => decide (b.Date ≤ row.Date)), ∀ c, cd = some c → c < bar.Date :=
              fun bar hbar => hdates bar (hpsub bar hbar)
            have hple : ∀ bar ∈ (df1.eraseIdx (bestIdx df1 cash)).filter
                (fun b => decide (b.Date ≤ row.Date)), bar.Date ≤ row.Date := by
              intro bar hbar
              have := (List.mem_filter.1 hbar).2
              simpa using this
            have hdf2len : (df1.filter (fun b => decide (row.Date < b.Date))).length ≤ f := by
              have h1 : (df1.filter (fun b => decide (row.Date < b.Date))).length < df1.length :=
                length_filter_lt hrow1 (by simp)
              omega
            have hdf2sub : ∀ x ∈ df1.filter (fun b => decide (row.Date < b.Date)), x ∈ df :=
              fun x hx => (mem_candidates.1 (List.mem_of_mem_filter hx)).1
            have hdf2clean : Cleaned (df1.filter (fun b => decide (row.Date < b.Date))) :=
              fun b hb => hclean b (hdf2sub b hb)
            have hdf2dm : DataMatch (df1.filter (fun b => decide (row.Date < b.Date))) dict :=
              fun b hb => hdm b (hdf2sub b hb)
            have hdates2 : ∀ bar ∈ df1.filter (fun b => decide (row.Date < b.Date)),
                ∀ c, (some row.Date : Option ℕ) = some c → c < bar.Date := by
              intro bar hbar c hc
              have h1 : row.Date < bar.Date := by
                have := (List.mem_filter.1 hbar).2
                simpa using this
              injection hc with hc2
              omega
            by_cases hvar : profit_low cash row < profit_open cash row
            · rw [if_pos hvar]
              have hpo : 0 < profit_open cash row := by
                rw [hbesteq, max_eq_left hvar.le] at hbest
                exact hbest
              set qv := execQty cash row.Max_Quantity row.Open with hqv
              have hq0 : 0 < qv := execQty_pos_open hcb hcash.le hpo
              have hqle : qv ≤ row.Max_Quantity := execQty_le_mq hcash.le (mq_nonneg hcb) hcb.1
              have hcostle : (qv : ℚ) * row.Open * BUY_COST_FACTOR ≤ cash :=
                execQty_cost_le hcash.le hcb.1
              have hcost0 : 0 ≤ (qv : ℚ) * row.Open * BUY_COST_FACTOR := by
                have h1 : (0 : ℚ) ≤ (qv : ℚ) := by exact_mod_cast hq0.le
                have := mul_nonneg (mul_nonneg h1 hcb.1.le) BCF_pos.le
                exact this
              have hco : row.Open * BUY_COST_FACTOR * (qv : ℚ) =
                  (qv : ℚ) * row.Open * BUY_COST_FACTOR := by ring
              have hrevco : row.High * SELL_REVENUE_FACTOR * (qv : ℚ) =
                  (qv : ℚ) * row.High * SELL_REVENUE_FACTOR := by ring
              have hprof : cash - (qv : ℚ) * row.Open * BUY_COST_FACTOR +
                  (qv : ℚ) * row.High * SELL_REVENUE_FACTOR = cash + profit_open cash row :=
                exec_profit_open hcb hcash.le
              obtain ⟨ib, cdb, dcb, drb, hb1, hb2, hb3, hb4, hb5⟩ :=
                ih ((df1.eraseIdx (bestIdx df1 cash)).filter (fun b => decide (b.Date ≤ row.Date)))
                  (cash - (qv : ℚ) * row.Open * BUY_COST_FACTOR) [] true (mpp.sub 1) mp
                  dict init cd dc dr (res + (qv : ℚ) * row.Open * BUY_COST_FACTOR)
                  hplen hpclean hpdm hpdates (add_nonneg hres hcost0) (by rw [havail]; ring)
              rw [hb1]
              simp only [List.nil_append]
              obtain ⟨DC2, DR2, hds, hsum, hcost2, hres2⟩ : ∃ DC2 DR2,
                  dateStep init cdb dcb drb row.Date = some (row.Date, DC2, DR2) ∧
                  DC2 + DR2 = (extraGo f ((df1.eraseIdx (bestIdx df1 cash)).filter
                    (fun b => decide (b.Date ≤ row.Date)))
                    (cash - (qv : ℚ) * row.Open * BUY_COST_FACTOR) [] true (mpp.sub 1) mp).1 +
                    res + row.Open * BUY_COST_FACTOR * (qv : ℚ) ∧
                  row.Open * BUY_COST_FACTOR * (qv : ℚ) ≤ DC2 ∧
                  res ≤ DC2 - row.Open * BUY_COST_FACTOR * (qv : ℚ) := by
                rcases hb5 with ⟨hib0, hcdb, hdcb, hdrb⟩ | ⟨hibne, hdcge, t, hcdb, bar, hbart, hbardate⟩
                · have hcashb : (extraGo f ((df1.eraseIdx (bestIdx df1 cash)).filter
                      (fun b => decide (b.Date ≤ row.Date)))
                      (cash - (qv : ℚ) * row.Open * BUY_COST_FACTOR) [] true (mpp.sub 1) mp).1 =
                      cash - (qv : ℚ) * row.Open * BUY_COST_FACTOR := by
                    have hx := hb4
                    rw [hcdb, hdcb, hdrb, havail] at hx
                    linarith
                  cases cd with
                  | none =>
                    refine ⟨init, 0, by
                      rw [hcdb, hdcb, hdrb]
                      exact dateStep_none init dc dr row.Date, ?_, ?_, ?_⟩
                    · have hinit : init = cash + res := havail
                      rw [hcashb, hinit, hco]; ring
                    · have hinit : init = cash + res := havail
                      rw [hinit, hco]; linarith
                    · have hinit : init = cash + res := havail
                      rw [hinit, hco]; linarith
                  | some c =>
                    have hc : c < row.Date := hdates row hrowdf c rfl
                    refine ⟨dc + dr, 0, by
                      rw [hcdb, hdcb, hdrb]
                      exact dateStep_settle init dc dr hc, ?_, ?_, ?_⟩
                    · have hdcdr : dc + dr = cash + res := havail
                      rw [hcashb, hdcdr, hco]; ring
                    · have hdcdr : dc + dr = cash + res := havail
                      rw [hdcdr, hco]; linarith
                    · have hdcdr : dc + dr = cash + res := havail
                      rw [hdcdr, hco]; linarith
                · have htle : t ≤ row.Date := by
                    have h1 := hple bar hbart
                    omega
                  have hcashb2 : cash - (qv : ℚ) * row.Open * BUY_COST_FACTOR ≤
                      (extraGo f ((df1.eraseIdx (bestIdx df1 cash)).filter
                      (fun b => decide (b.Date ≤ row.Date)))
                      (cash - (qv : ℚ) * row.Open * BUY_COST_FACTOR) [] true (mpp.sub 1) mp).1 :=
                    hb2
                  have havailb : dcb + drb = (extraGo f ((df1.eraseIdx (bestIdx df1 cash)).filter
                      (fun b => decide (b.Date ≤ row.Date)))
                      (cash - (qv : ℚ) * row.Open * BUY_COST_FACTOR) [] true (mpp.sub 1) mp).1 +
                      (res + (qv : ℚ) * row.Open * BUY_COST_FACTOR) := by
                    have := hb4
                    rw [hcdb] at this
                    exact this
                  rcases lt_or_eq_of_le htle with hlt | heq
                  · refine ⟨dcb + drb, 0, ?_, ?_, ?_, ?_⟩
                    · rw [hcdb]; exact dateStep_settle init dcb drb hlt
                    · rw [havailb, hco]; ring
                    · rw [havailb, hco]; linarith
                    · rw [havailb, hco]; linarith
                  · refine ⟨dcb, drb, ?_, ?_, ?_, ?_⟩
                    · rw [hcdb, heq]; exact dateStep_self init row.Date dcb drb
                    · rw [hco]; linarith [havailb]
                    · rw [hco]; linarith [hdcge, hres]
                    · rw [hco]; linarith [hdcge]
              have hl : lookupRow dict row.Stock row.Date = some row := hdm row hrowdf
              have havailT : avail init (some row.Date)
                  (DC2 - row.Open * BUY_COST_FACTOR * (qv : ℚ))
                  (DR2 + row.High * SELL_REVENUE_FACTOR * (qv : ℚ)) =
                  ((extraGo f ((df1.eraseIdx (bestIdx df1 cash)).filter
                    (fun b => decide (b.Date ≤ row.Date)))
                    (cash - (qv : ℚ) * row.Open * BUY_COST_FACTOR) [] true (mpp.sub 1) mp).1 +
                    (qv : ℚ) * row.High * SELL_REVENUE_FACTOR) + res := by
                show DC2 - row.Open * BUY_COST_FACTOR * (qv : ℚ) +
                  (DR2 + row.High * SELL_REVENUE_FACTOR * (qv : ℚ)) = _
                rw [hrevco]
                linarith [hsum]
              by_cases hpast : past = true
              · rw [if_pos hpast]
                obtain ⟨new2, cdf, dcf, drf, ht1, ht2, ht3, ht4, ht5⟩ :=
                  ih (df1.filter (fun b => decide (row.Date < b.Date)))
                    ((extraGo f ((df1.eraseIdx (bestIdx df1 cash)).filter
                      (fun b => decide (b.Date ≤ row.Date)))
                      (cash - (qv : ℚ) * row.Open * BUY_COST_FACTOR) [] true (mpp.sub 1) mp).1 +
                      (qv : ℚ) * row.High * SELL_REVENUE_FACTOR)
                    ((m ++ ib) ++ [⟨some row.Date, "buy-open", row.Stock, some qv⟩,
                      ⟨some row.Date, "sell-high", row.Stock, some qv⟩]) true
                    (mpp.sub ((((m ++ ib) ++ [(⟨some row.Date, "buy-open", row.Stock, some qv⟩ : Move),
                      ⟨some row.Date, "sell-high", row.Stock, some qv⟩]).length / 2 : ℕ) : ℤ)) mp
                    dict init (some row.Date)
                    (DC2 - row.Open * BUY_COST_FACTOR * (qv : ℚ))
                    (DR2 + row.High * SELL_REVENUE_FACTOR * (qv : ℚ)) res
                    hdf2len hdf2clean hdf2dm hdates2 hres havailT
                refine ⟨ib ++ (⟨some row.Date, "buy-open", row.Stock, some qv⟩ ::
                  ⟨some row.Date, "sell-high", row.Stock, some qv⟩ :: new2), cdf, dcf, drf,
                  ?_, ?_, ?_, ?_, ?_⟩
                · rw [ht1]; simp
                · refine le_trans ?_ ht2
                  linarith [hb2, hprof, hpo]
                · intro rest
                  rw [show (ib ++ (⟨some row.Date, "buy-open", row.Stock, some qv⟩ ::
                    ⟨some row.Date, "sell-high", row.Stock, some qv⟩ :: new2)) ++ rest =
                    ib ++ (⟨some row.Date, "buy-open", row.Stock, some qv⟩ ::
                    ⟨some row.Date, "sell-high", row.Stock, some qv⟩ :: (new2 ++ rest)) by simp]
                  rw [hb3, goV_pair_open hds hl hqle hcost2, ht3]
                · exact ht4
                · refine Or.inr ⟨by simp, ?_, ?_⟩
                  · rcases ht5 with ⟨_, _, hdcf, _⟩ | ⟨_, hdcf, _⟩
                    · rw [hdcf]; exact hres2
                    · exact hdcf
                  · rcases ht5 with ⟨_, hcdf, _, _⟩ | ⟨_, _, t2, hcdf, bar2, hbar2, hdate2⟩
                    · exact ⟨row.Date, hcdf, row, hrowdf, rfl⟩
                    · exact ⟨t2, hcdf, bar2, hdf2sub bar2 hbar2, hdate2⟩
              · rw [if_neg hpast]
                obtain ⟨new2, cdf, dcf, drf, ht1, ht2, ht3, ht4, ht5⟩ :=
                  ih (df1.filter (fun b => decide (row.Date < b.Date)))
                    ((extraGo f ((df1.eraseIdx (bestIdx df1 cash)).filter
                      (fun b => decide (b.Date ≤ row.Date)))
                      (cash - (qv : ℚ) * row.Open * BUY_COST_FACTOR) [] true (mpp.sub 1) mp).1 +
                      (qv : ℚ) * row.High * SELL_REVENUE_FACTOR)
                    ((m ++ ib) ++ [⟨some row.Date, "buy-open", row.Stock, some qv⟩,
                      ⟨some row.Date, "sell-high", row.Stock, some qv⟩]) false mpp mp
                    dict init (some row.Date)
                    (DC2 - row.Open * BUY_COST_FACTOR * (qv : ℚ))
                    (DR2 + row.High * SELL_REVENUE_FACTOR * (qv : ℚ)) res
                    hdf2len hdf2clean hdf2dm hdates2 hres havailT
                refine ⟨ib ++ (⟨some row.Date, "buy-open", row.Stock, some qv⟩ ::
                  ⟨some row.Date, "sell-high", row.Stock, some qv⟩ :: new2), cdf, dcf, drf,
                  ?_, ?_, ?_, ?_, ?_⟩
                · rw [ht1]; simp
                · refine le_trans ?_ ht2
                  linarith [hb2, hprof, hpo]
                · intro rest
                  rw [show (ib ++ (⟨some row.Date, "buy-open", row.Stock, some qv⟩ ::
                    ⟨some row.Date, "sell-high", row.Stock, some qv⟩ :: new2)) ++ rest =
                    ib ++ (⟨some row.Date, "buy-open", row.Stock, some qv⟩ ::
                    ⟨some row.Date, "sell-high", row.Stock, some qv⟩ :: (new2 ++ rest)) by simp]
                  rw [hb3, goV_pair_open hds hl hqle hcost2, ht3]
                · exact ht4
                · refine Or.inr ⟨by simp, ?_, ?_⟩
                  · rcases ht5 with ⟨_, _, hdcf, _⟩ | ⟨_, hdcf, _⟩
                    · rw [hdcf]; exact hres2
                    · exact hdcf
                  · rcases ht5 with ⟨_, hcdf, _, _⟩ | ⟨_, _, t2, hcdf, bar2, hbar2, hdate2⟩
                    · exact ⟨row.Date, hcdf, row, hrowdf, rfl⟩
                    · exact ⟨t2, hcdf, bar2, hdf2sub bar2 hbar2, hdate2⟩
            · rw [if_neg hvar]
              have hpl : 0 < profit_low cash row := by
                push_neg at hvar
                rw [hbesteq, max_eq_right hvar] at hbest
                exact hbest
              set qv := execQty cash row.Max_Quantity row.Low with hqv
              have hq0 : 0 < qv := execQty_pos_low hcb hcash.le hpl
              have hqle : qv ≤ row.Max_Quantity := execQty_le_mq hcash.le (mq_nonneg hcb) hcb.2.2.1
              have hcostle : (qv : ℚ) * row.Low * BUY_COST_FACTOR ≤ cash :=
                execQty_cost_le hcash.le hcb.2.2.1
              have hcost0 : 0 ≤ (qv : ℚ) * row.Low * BUY_COST_FACTOR := by
                have h1 : (0 : ℚ) ≤ (qv : ℚ) := by exact_mod_cast hq0.le
                have := mul_nonneg (mul_nonneg h1 hcb.2.2.1.le) BCF_pos.le
                exact this
              have hco : row.Low * BUY_COST_FACTOR * (qv : ℚ) =
                  (qv : ℚ) * row.Low * BUY_COST_FACTOR := by ring
              have hrevco : row.Close * SELL_REVENUE_FACTOR * (qv : ℚ) =
                  (qv : ℚ) * row.Close * SELL_REVENUE_FACTOR := by ring
              have hprof : cash - (qv : ℚ) * row.Low * BUY_COST_FACTOR +
                  (qv : ℚ) * row.Close * SELL_REVENUE_FACTOR = cash + profit_low cash row :=
                exec_profit_low hcb hcash.le
              obtain ⟨ib, cdb, dcb, drb, hb1, hb2, hb3, hb4, hb5⟩ :=
                ih ((df1.eraseIdx (bestIdx df1 cash)).filter (fun b => decide (b.Date ≤ row.Date)))
                  (cash - (qv : ℚ) * row.Low * BUY_COST_FACTOR) [] true (mpp.sub 1) mp
                  dict init cd dc dr (res + (qv : ℚ) * row.Low * BUY_COST_FACTOR)
                  hplen hpclean hpdm hpdates (add_nonneg hres hcost0) (by rw [havail]; ring)
              rw [hb1]
              simp only [List.nil_append]
              obtain ⟨DC2, DR2, hds, hsum, hcost2, hres2⟩ : ∃ DC2 DR2,
                  dateStep init cdb dcb drb row.Date = some (row.Date, DC2, DR2) ∧
                  DC2 + DR2 = (extraGo f ((df1.eraseIdx (bestIdx df1 cash)).filter
                    (fun b => decide (b.Date ≤ row.Date)))
                    (cash - (qv : ℚ) * row.Low * BUY_COST_FACTOR) [] true (mpp.sub 1) mp).1 +
                    res + row.Low * BUY_COST_FACTOR * (qv : ℚ) ∧
                  row.Low * BUY_COST_FACTOR * (qv : ℚ) ≤ DC2 ∧
                  res ≤ DC2 - row.Low * BUY_COST_FACTOR * (qv : ℚ) := by
                rcases hb5 with ⟨hib0, hcdb, hdcb, hdrb⟩ | ⟨hibne, hdcge, t, hcdb, bar, hbart, hbardate⟩
                · have hcashb : (extraGo f ((df1.eraseIdx (bestIdx df1 cash)).filter
                      (fun b => decide (b.Date ≤ row.Date)))
                      (cash - (qv : ℚ) * row.Low * BUY_COST_FACTOR) [] true (mpp.sub 1) mp).1 =
                      cash - (qv : ℚ) * row.Low * BUY_COST_FACTOR := by
                    have hx := hb4
                    rw [hcdb, hdcb, hdrb, havail] at hx
                    linarith
                  cases cd with
                  | none =>
                    refine ⟨init, 0, by
                      rw [hcdb, hdcb, hdrb]
                      exact dateStep_none init dc dr row.Date, ?_, ?_, ?_⟩
                    · have hinit : init = cash + res := havail
                      rw [hcashb, hinit, hco]; ring
                    · have hinit : init = cash + res := havail
                      rw [hinit, hco]; linarith
                    · have hinit : init = cash + res := havail
                      rw [hinit, hco]; linarith
                  | some c =>
                    have hc : c < row.Date := hdates row hrowdf c rfl
                    refine ⟨dc + dr, 0, by
                      rw [hcdb, hdcb, hdrb]
                      exact dateStep_settle init dc dr hc, ?_, ?_, ?_⟩
                    · have hdcdr : dc + dr = cash + res := havail
                      rw [hcashb, hdcdr, hco]; ring
                    · have hdcdr : dc + dr = cash + res := havail
                      rw [hdcdr, hco]; linarith
                    · have hdcdr : dc + dr = cash + res := havail
                      rw [hdcdr, hco]; linarith
                · have htle : t ≤ row.Date := by
                    have h1 := hple bar hbart
                    omega
                  have havailb : dcb + drb = (extraGo f ((df1.eraseIdx (bestIdx df1 cash)).filter
                      (fun b => decide (b.Date ≤ row.Date)))
                      (cash - (qv : ℚ) * row.Low * BUY_COST_FACTOR) [] true (mpp.sub 1) mp).1 +
                      (res + (qv : ℚ) * row.Low * BUY_COST_FACTOR) := by
                    have := hb4
                    rw [hcdb] at this
                    exact this
                  rcases lt_or_eq_of_le htle with hlt | heq
                  · refine ⟨dcb + drb, 0, ?_, ?_, ?_, ?_⟩
                    · rw [hcdb]; exact dateStep_settle init dcb drb hlt
                    · rw [havailb, hco]; ring
                    · rw [havailb, hco]; linarith [hb2]
                    · rw [havailb, hco]; linarith [hb2]
                  · refine ⟨dcb, drb, ?_, ?_, ?_, ?_⟩
                    · rw [hcdb, heq]; exact dateStep_self init row.Date dcb drb
                    · rw [hco]; linarith [havailb]
                    · rw [hco]; linarith [hdcge, hres]
                    · rw [hco]; linarith [hdcge]
              have hl : lookupRow dict row.Stock row.Date = some row := hdm row hrowdf
              have havailT : avail init (some row.Date)
                  (DC2 - row.Low * BUY_COST_FACTOR * (qv : ℚ))
                  (DR2 + row.Close * SELL_REVENUE_FACTOR * (qv : ℚ)) =
                  ((extraGo f ((df1.eraseIdx (bestIdx df1 cash)).filter
                    (fun b => decide (b.Date ≤ row.Date)))
                    (cash - (qv : ℚ) * row.Low * BUY_COST_FACTOR) [] true (mpp.sub 1) mp).1 +
                    (qv : ℚ) * row.Close * SELL_REVENUE_FACTOR) + res := by
                show DC2 - row.Low * BUY_COST_FACTOR * (qv : ℚ) +
                  (DR2 + row.Close * SELL_REVENUE_FACTOR * (qv : ℚ)) = _
                rw [hrevco]
                linarith [hsum]
              by_cases hpast : past = true
              · rw [if_pos hpast]
                obtain ⟨new2, cdf, dcf, drf, ht1, ht2, ht3, ht4, ht5⟩ :=
                  ih (df1.filter (fun b => decide (row.Date < b.Date)))
                    ((extraGo f ((df1.eraseIdx (bestIdx df1 cash)).filter
                      (fun b => decide (b.Date ≤ row.Date)))
                      (cash - (qv : ℚ) * row.Low * BUY_COST_FACTOR) [] true (mpp.sub 1) mp).1 +
                      (qv : ℚ) * row.Close * SELL_REVENUE_FACTOR)
                    ((m ++ ib) ++ [⟨some row.Date, "buy-low", row.Stock, some qv⟩,
                      ⟨some row.Date, "sell-close", row.Stock, some qv⟩]) true
                    (mpp.sub ((((m ++ ib) ++ [(⟨some row.Date, "buy-low", row.Stock, some qv⟩ : Move),
                      ⟨some row.Date, "sell-close", row.Stock, some qv⟩]).length / 2 : ℕ) : ℤ)) mp
                    dict init (some row.Date)
                    (DC2 - row.Low * BUY_COST_FACTOR * (qv : ℚ))
                    (DR2 + row.Close * SELL_REVENUE_FACTOR * (qv : ℚ)) res
                    hdf2len hdf2clean hdf2dm hdates2 hres havailT
                refine ⟨ib ++ (⟨some row.Date, "buy-low", row.Stock, some qv⟩ ::
                  ⟨some row.Date, "sell-close", row.Stock, some qv⟩ :: new2), cdf, dcf, drf,
                  ?_, ?_, ?_, ?_, ?_⟩
                · rw [ht1]; simp
                · refine le_trans ?_ ht2
                  linarith [hb2, hprof, hpl]
                · intro rest
                  rw [show (ib ++ (⟨some row.Date, "buy-low", row.Stock, some qv⟩ ::
                    ⟨some row.Date, "sell-close", row.Stock, some qv⟩ :: new2)) ++ rest =
                    ib ++ (⟨some row.Date, "buy-low", row.Stock, some qv⟩ ::
                    ⟨some row.Date, "sell-close", row.Stock, some qv⟩ :: (new2 ++ rest)) by simp]
                  rw [hb3, goV_pair_low hds hl hqle hcost2, ht3]
                · exact ht4
                · refine Or.inr ⟨by simp, ?_, ?_⟩
                  · rcases ht5 with ⟨_, _, hdcf, _⟩ | ⟨_, hdcf, _⟩
                    · rw [hdcf]; exact hres2
                    · exact hdcf
                  · rcases ht5 with ⟨_, hcdf, _, _⟩ | ⟨_, _, t2, hcdf, bar2, hbar2, hdate2⟩
                    · exact ⟨row.Date, hcdf, row, hrowdf, rfl⟩
                    · exact ⟨t2, hcdf, bar2, hdf2sub bar2 hbar2, hdate2⟩
              · rw [if_neg hpast]
                obtain ⟨new2, cdf, dcf, drf, ht1, ht2, ht3, ht4, ht5⟩ :=
                  ih (df1.filter (fun b => decide (row.Date < b.Date)))
                    ((extraGo f ((df1.eraseIdx (bestIdx df1 cash)).filter
                      (fun b => decide (b.Date ≤ row.Date)))
                      (cash - (qv : ℚ) * row.Low * BUY_COST_FACTOR) [] true (mpp.sub 1) mp).1 +
                      (qv : ℚ) * row.Close * SELL_REVENUE_FACTOR)
                    ((m ++ ib) ++ [⟨some row.Date, "buy-low", row.Stock, some qv⟩,
                      ⟨some row.Date, "sell-close", row.Stock, some qv⟩]) false mpp mp
                    dict init (some row.Date)
                    (DC2 - row.Low * BUY_COST_FACTOR * (qv : ℚ))
                    (DR2 + row.Close * SELL_REVENUE_FACTOR * (qv : ℚ)) res
                    hdf2len hdf2clean hdf2dm hdates2 hres havailT
                refine ⟨ib ++ (⟨some row.Date, "buy-low", row.Stock, some qv⟩ ::
                  ⟨some row.Date, "sell-close", row.Stock, some qv⟩ :: new2), cdf, dcf, drf,
                  ?_, ?_, ?_, ?_, ?_⟩
                · rw [ht1]; simp
                · refine le_trans ?_ ht2
                  linarith [hb2, hprof, hpl]
                · intro rest
                  rw [show (ib ++ (⟨some row.Date, "buy-low", row.Stock, some qv⟩ ::
                    ⟨some row.Date, "sell-close", row.Stock, some qv⟩ :: new2)) ++ rest =
                    ib ++ (⟨some row.Date, "buy-low", row.Stock, some qv⟩ ::
                    ⟨some row.Date, "sell-close", row.Stock, some qv⟩ :: (new2 ++ rest)) by simp]
                  rw [hb3, goV_pair_low hds hl hqle hcost2, ht3]
                · exact ht4
                · refine Or.inr ⟨by simp, ?_, ?_⟩
                  · rcases ht5 with ⟨_, _, hdcf, _⟩ | ⟨_, hdcf, _⟩
                    · rw [hdcf]; exact hres2
                    · exact hdcf
                  · rcases ht5 with ⟨_, hcdf, _, _⟩ | ⟨_, _, t2, hcdf, bar2, hbar2, hdate2⟩
                    · exact ⟨row.Date, hcdf, row, hrowdf, rfl⟩
                    · exact ⟨t2, hcdf, bar2, hdf2sub bar2 hbar2, hdate2⟩

/-! ### Concrete single-bar scenario (spec section 8 end-to-end test) -/

/-- The single bar of the end-to-end scenario: date 2020-01-01, Open 10,
High 12, Low 9, Close 11, Volume 1000, `Max_Quantity = int(0.1 * 1000)`. -/
def bar2020 : DayBar := ⟨20200101, "X", 10, 12, 9, 11, 1000, 100⟩

/-- The validator's market data for the scenario. -/
def dict2020 : List (String × List DayBar) := [("X", [bar2020])]

theorem cleaned_2020 : Cleaned [bar2020] := by
  intro b hb
  rw [List.mem_singleton] at hb
  subst hb
  refine ⟨?_, ?_, ?_, ?_, ?_, ?_, ?_, ?_, ?_, ?_, ?_⟩ <;>
    norm_num [bar2020, pyInt, VOLUME_CONSTRAINT_FACTOR]

theorem datamatch_2020 : DataMatch [bar2020] dict2020 := by
  intro b hb
  rw [List.mem_singleton] at hb
  subst hb
  norm_num [lookupRow, dict2020, List.lookup, bar2020]

theorem greedy_eval_2020 : greedy_trading_recursive [bar2020] 1000 [] =
    (1180, [⟨some 20200101, "buy-low", "X", some 100⟩,
            ⟨some 20200101, "sell-close", "X", some 100⟩]) := by
  norm_num [greedy_trading_recursive, greedyGo, candidates, afford, profitsOf, bestIdx,
    np_argmax, argmaxGo, bestOf, profit_open, profit_low, quantity_open, quantity_low,
    execQty, pyInt, bar2020, BUY_COST_FACTOR, SELL_REVENUE_FACTOR, COMMISSION_RATE,
    List.filter, List.zipWith, List.getD, List.get?]

theorem extra_eval_2020 :
    extra_greedy_trading_recursive [bar2020] 1000 [] false PairBudget.inf MinProfit.negInf =
    (1180, [⟨some 20200101, "buy-low", "X", some 100⟩,
            ⟨some 20200101, "sell-close", "X", some 100⟩]) := by
  norm_num [extra_greedy_trading_recursive, extraGo, candidates, afford, profitsOf, bestIdx,
    np_argmax, argmaxGo, bestOf, profit_open, profit_low, quantity_open, quantity_low,
    execQty, pyInt, bar2020, BUY_COST_FACTOR, SELL_REVENUE_FACTOR, COMMISSION_RATE,
    List.filter, List.zipWith, List.getD, List.get?, PairBudget.leNat, PairBudget.sub,
    MinProfit.leB, List.eraseIdx]

theorem validate_eval_2020 : validate_moves 1000
    [⟨some 20200101, "buy-low", "X", some 100⟩,
     ⟨some 20200101, "sell-close", "X", some 100⟩] dict2020 = 1180 := by
  norm_num [validate_moves, goV, dateStep, lookupRow, dict2020, bar2020, List.lookup,
    List.filter, BUY_COST_FACTOR, SELL_REVENUE_FACTOR, COMMISSION_RATE]
  decide

theorem profit_low_2020 : profit_low 1000 bar2020 = 180 := by
  norm_num [profit_low, quantity_low, bar2020, BUY_COST_FACTOR, SELL_REVENUE_FACTOR,
    COMMISSION_RATE]

theorem profit_open_2020 : profit_open 1000 bar2020 = 8811 / 50 := by
  norm_num [profit_open, quantity_open, bar2020, BUY_COST_FACTOR, SELL_REVENUE_FACTOR,
    COMMISSION_RATE]

/-! ### Claim theorems -/

/-- C1: for either strategy run from a cleaned dataset (matching the
validator's market data) with any initial cash, whenever the produced move
list is non-empty and chronologically well-formed, the strategy's
`final_cash` agrees with the balance `validate_moves` recomputes from the
same list and the same initial cash, within tolerance 1e-2. -/
theorem C1_strategy_validator_agree (df : List DayBar)
    (dict : List (String × List DayBar)) (cash : ℚ) (mpp : PairBudget) (mp : MinProfit)
    (hclean : Cleaned df) (hdm : DataMatch df dict) :
    ((extra_greedy_trading_recursive df cash [] false mpp mp).2 ≠ [] →
      chronOKB (extra_greedy_trading_recursive df cash [] false mpp mp).2 = true →
      |(extra_greedy_trading_recursive df cash [] false mpp mp).1 -
        validate_moves cash (extra_greedy_trading_recursive df cash [] false mpp mp).2 dict| <
        1 / 100) ∧
    ((greedy_trading_recursive df cash []).2 ≠ [] →
      chronOKB (greedy_trading_recursive df cash []).2 = true →
      |(greedy_trading_recursive df cash []).1 -
        validate_moves cash (greedy_trading_recursive df cash []).2 dict| < 1 / 100) := by
  have key : ∀ (mpp' : PairBudget) (mp' : MinProfit),
      (extra_greedy_trading_recursive df cash [] false mpp' mp').2 ≠ [] →
      validate_moves cash (extra_greedy_trading_recursive df cash [] false mpp' mp').2 dict =
        (extra_greedy_trading_recursive df cash [] false mpp' mp').1 := by
    intro mpp' mp' hne
    obtain ⟨new, cd2, dc2, dr2, h1, h2, h3, h4, h5⟩ :=
      extraGo_replay df.length df cash [] false mpp' mp' dict cash none 0 0 0
        (le_refl _) hclean hdm (by intro bar hbar c hc; cases hc) (le_refl 0)
        (by show cash = cash + 0; ring)
    have hwrap : (extra_greedy_trading_recursive df cash [] false mpp' mp').2 = new := by
      rw [extra_greedy_trading_recursive, h1, List.nil_append]
    have hval : goV dict cash none 0 0 new = dc2 + dr2 := by
      have hx := h3 []
      rw [List.append_nil] at hx
      rw [hx]
      rfl
    rcases h5 with ⟨hnew0, _, _, _⟩ | ⟨_, _, t, hcd2, _⟩
    · exact absurd (hwrap.trans hnew0) hne
    · have havail2 : avail cash cd2 dc2 dr2 = dc2 + dr2 := by rw [hcd2]; rfl
      rw [validate_moves, hwrap, hval]
      have h6 := h4
      rw [havail2] at h6
      rw [extra_greedy_trading_recursive]
      linarith
  constructor
  · intro hne _
    rw [key mpp mp hne]
    norm_num
  · intro hne hch
    have heq : greedy_trading_recursive df cash [] =
        extra_greedy_trading_recursive df cash [] false (PairBudget.fin 0) mp :=
      (extraGo_budget_zero_eq_greedyGo df.length df cash [] mp).symm
    rw [heq] at hne ⊢
    rw [key (PairBudget.fin 0) mp hne]
    norm_num

/-- C1 witness: the single-bar scenario instantiates the agreement for both
strategies. -/
theorem C1_witness :
    |(extra_greedy_trading_recursive [bar2020] 1000 [] false PairBudget.inf
        MinProfit.negInf).1 -
      validate_moves 1000 (extra_greedy_trading_recursive [bar2020] 1000 [] false
        PairBudget.inf MinProfit.negInf).2 dict2020| < 1 / 100 ∧
    |(greedy_trading_recursive [bar2020] 1000 []).1 -
      validate_moves 1000 (greedy_trading_recursive [bar2020] 1000 []).2 dict2020| <
      1 / 100 := by
  have h := C1_strategy_validator_agree [bar2020] dict2020 1000 PairBudget.inf
    MinProfit.negInf cleaned_2020 datamatch_2020
  refine ⟨h.1 ?_ ?_, h.2 ?_ ?_⟩
  · rw [extra_eval_2020]; simp
  · rw [extra_eval_2020]; simp [chronOKB, dleB]
  · rw [greedy_eval_2020]; simp
  · rw [greedy_eval_2020]; simp [chronOKB, dleB]

/-- C2 counterexample: the claim's conjunction is false on the stated
single-bar input because the code computes the buy-open→sell-high profit
with the affordability-capped quantity 99, giving 176.22, not 178. -/
theorem C2_counterexample : ¬ (bar2020.Max_Quantity = 100 ∧
    profit_low 1000 bar2020 = 180 ∧
    profit_open 1000 bar2020 = 178 ∧
    greedy_trading_recursive [bar2020] 1000 [] =
      (1180, [⟨some 20200101, "buy-low", "X", some 100⟩,
              ⟨some 20200101, "sell-close", "X", some 100⟩]) ∧
    validate_moves 1000 [⟨some 20200101, "buy-low", "X", some 100⟩,
      ⟨some 20200101, "sell-close", "X", some 100⟩] dict2020 = 1180) := by
  intro h
  have h3 := h.2.2.1
  rw [profit_open_2020] at h3
  norm_num at h3

/-- C2 amended: on the single-bar scenario `max_quantity` is 100, the
buy-low→sell-close profit is 180, the buy-open→sell-high profit is 176.22
(the open-variant quantity is capped at 99 by affordable cash), the greedy
strategy selects the buy-low/sell-close pair, returns final cash 1180, and
the validator replaying the two moves returns 1180. -/
theorem C2_single_bar_scenario : bar2020.Max_Quantity = 100 ∧
    bar2020.Max_Quantity = pyInt (VOLUME_CONSTRAINT_FACTOR * bar2020.Volume) ∧
    profit_low 1000 bar2020 = 180 ∧
    profit_open 1000 bar2020 = 8811 / 50 ∧
    greedy_trading_recursive [bar2020] 1000 [] =
      (1180, [⟨some 20200101, "buy-low", "X", some 100⟩,
              ⟨some 20200101, "sell-close", "X", some 100⟩]) ∧
    validate_moves 1000 [⟨some 20200101, "buy-low", "X", some 100⟩,
      ⟨some 20200101, "sell-close", "X", some 100⟩] dict2020 = 1180 :=
  ⟨rfl, by norm_num [bar2020, pyInt, VOLUME_CONSTRAINT_FACTOR], profit_low_2020,
    profit_open_2020, greedy_eval_2020, validate_eval_2020⟩

/-- C3: every move emitted by either strategy references a bar of its
dataset with a positive quantity not exceeding that bar's `Max_Quantity`,
and the validator independently rejects (returns -1) any move whose
quantity exceeds the looked-up bar's `Max_Quantity`. -/
theorem C3_quantity_invariant :
    (∀ (df : List DayBar) (cash : ℚ), Cleaned df →
      ∀ mv ∈ (greedy_trading_recursive df cash []).2, moveFromB df mv = true) ∧
    (∀ (df : List DayBar) (cash : ℚ) (mpp : PairBudget) (mp : MinProfit), Cleaned df →
      ∀ mv ∈ (extra_greedy_trading_recursive df cash [] false mpp mp).2,
        moveFromB df mv = true) ∧
    (∀ (dict : List (String × List DayBar)) (init : ℚ) (cd : Option ℕ) (dc dr : ℚ)
      (act stk : String) (ms : List Move) (md : ℕ) (q : ℤ) (row : DayBar),
      lookupRow dict stk md = some row → row.Max_Quantity < q →
      goV dict init cd dc dr (⟨some md, act, stk, some q⟩ :: ms) = -1) := by
  refine ⟨?_, ?_, ?_⟩
  · intro df cash h mv hmv
    obtain ⟨new, h1, _, _, h4⟩ := greedyGo_spec df.length df cash [] (le_refl _) h
    rw [greedy_trading_recursive, h1, List.nil_append] at hmv
    exact h4 mv hmv
  · intro df cash mpp mp h mv hmv
    obtain ⟨new, h1, h2⟩ := extraGo_moves df.length df cash [] false mpp mp (le_refl _) h
    rw [extra_greedy_trading_recursive, h1, List.nil_append] at hmv
    exact h2 mv hmv
  · intro dict init cd dc dr act stk ms md q row hl hmq
    rw [goV]
    rcases hds : dateStep init cd dc dr md with _ | ⟨c2, dc2, dr2⟩
    · simp [hds]
    · simp only [hds, hl]
      rw [if_pos hmq]

/-- C3 witness: the greedy scenario move satisfies the bound and a
quantity of 101 against `Max_Quantity` 100 is rejected. -/
theorem C3_witness :
    moveFromB [bar2020] ⟨some 20200101, "buy-low", "X", some 100⟩ = true ∧
    goV dict2020 1000 none 0 0 [⟨some 20200101, "buy-low", "X", some 101⟩] = -1 := by
  have h := C3_quantity_invariant
  constructor
  · apply h.1 [bar2020] 1000 cleaned_2020
    rw [greedy_eval_2020]
    simp
  · exact h.2.2 dict2020 1000 none 0 0 "buy-low" "X" [] 20200101 101 bar2020
      (by norm_num [lookupRow, dict2020, List.lookup, List.filter, bar2020])
      (by norm_num [bar2020])

/-- C4: for the simple greedy strategy on a cleaned dataset the final cash
never falls below the initial cash, and the output is a sequence of
same-day buy/sell pairs, each individually strictly profitable, with
strictly increasing pair dates. -/
theorem C4_greedy_monotone (df : List DayBar) (cash : ℚ) (h : Cleaned df) :
    cash ≤ (greedy_trading_recursive df cash []).1 ∧
    tradeSeqB df (greedy_trading_recursive df cash []).2 = true := by
  obtain ⟨new, h1, h2, h3, _⟩ := greedyGo_spec df.length df cash [] (le_refl _) h
  refine ⟨h2, ?_⟩
  have hx : (greedy_trading_recursive df cash []).2 = new := by
    rw [greedy_trading_recursive, h1, List.nil_append]
  rw [hx]
  exact h3

/-- C4 witness: instantiation on the single-bar scenario. -/
theorem C4_witness : (1000 : ℚ) ≤ (greedy_trading_recursive [bar2020] 1000 []).1 ∧
    tradeSeqB [bar2020] (greedy_trading_recursive [bar2020] 1000 []).2 = true :=
  C4_greedy_monotone [bar2020] 1000 cleaned_2020

/-- C5: calling the lookback strategy with `max_past_pairs = 0` produces
exactly the same result as the simple greedy strategy: every corrective
sub-search is launched with a spent budget and returns immediately. -/
theorem C5_budget_zero_equals_greedy (df : List DayBar) (cash : ℚ) (m : List Move)
    (mp : MinProfit) :
    extra_greedy_trading_recursive df cash m false (PairBudget.fin 0) mp =
    greedy_trading_recursive df cash m :=
  extraGo_budget_zero_eq_greedyGo df.length df cash m mp

/-- C6: a corrective call whose budget test `len(moves)//2 >=
max_past_pairs` holds returns its state unchanged, and a corrective branch
launched with finite budget `b` and an empty move list emits at most `b`
pairs in total, nested sub-branches included. -/
theorem C6_corrective_budget_ceiling :
    (∀ (df : List DayBar) (cash : ℚ) (m : List Move) (mpp : PairBudget) (mp : MinProfit),
      mpp.leNat (m.length / 2) = true →
      extra_greedy_trading_recursive df cash m true mpp mp = (cash, m)) ∧
    (∀ (df : List DayBar) (cash : ℚ) (mp : MinProfit) (b : ℕ),
      (extra_greedy_trading_recursive df cash [] true (PairBudget.fin b) mp).2.length / 2
        ≤ b) := by
  constructor
  · intro df cash m mpp mp h
    exact extraGo_budget_stop df.length df cash m mpp mp h
  · intro df cash mp b
    have h := extraGo_pairs df.length df cash [] b mp
    rw [max_eq_right (by positivity : (0 : ℤ) ≤ (b : ℤ))] at h
    simp only [List.length_nil, Nat.zero_div, Nat.cast_zero, zero_add] at h
    exact_mod_cast h

/-- C6 witness: exhausted budget returns unchanged, and a zero budget
emits zero pairs. -/
theorem C6_witness :
    extra_greedy_trading_recursive [] 5 [] true (PairBudget.fin 0) MinProfit.negInf =
      (5, []) ∧
    (extra_greedy_trading_recursive [] 5 [] true (PairBudget.fin 0)
      MinProfit.negInf).2.length / 2 ≤ 0 :=
  ⟨C6_corrective_budget_ceiling.1 [] 5 [] (PairBudget.fin 0) MinProfit.negInf (by decide),
   C6_corrective_budget_ceiling.2 [] 5 MinProfit.negInf 0⟩

/-- C7: in a corrective call with budget remaining, when candidates exist
and the globally best candidate's profit is positive but below
`min_profit`, the corrective search terminates at once, returning cash and
the move list unchanged. -/
theorem C7_corrective_min_profit_stop (df : List DayBar) (cash : ℚ) (m : List Move)
    (mpp : PairBudget) (mp : MinProfit)
    (hb : mpp.leNat (m.length / 2) = false)
    (hne : candidates df cash ≠ [])
    (hpos : 0 < bestOf (candidates df cash) cash)
    (hmp : mp.leB (bestOf (candidates df cash) cash) = false) :
    extra_greedy_trading_recursive df cash m true mpp mp = (cash, m) := by
  rw [extra_greedy_trading_recursive]
  cases hfl : df.length with
  | zero =>
    exfalso
    apply hne
    have hdf : df = [] := List.length_eq_zero.1 hfl
    rw [hdf]
    rfl
  | succ n =>
    rw [extraGo]
    rw [if_neg (by simp [hb])]
    rw [if_neg hne]
    rw [if_neg (not_le.2 hpos)]
    rw [if_pos (by simp [hmp])]

/-- C7 witness: the single bar offers profit 180, below the threshold
1000000, so the corrective call returns its state unchanged. -/
theorem C7_witness : extra_greedy_trading_recursive [bar2020] 1000 [] true PairBudget.inf
    (MinProfit.val 1000000) = (1000, []) := by
  apply C7_corrective_min_profit_stop
  · rfl
  · norm_num [candidates, afford, bar2020, BUY_COST_FACTOR, COMMISSION_RATE, List.filter]
  · norm_num [bestOf, profitsOf, bestIdx, np_argmax, argmaxGo, candidates, afford,
      profit_open, profit_low, quantity_open, quantity_low, bar2020, BUY_COST_FACTOR,
      SELL_REVENUE_FACTOR, COMMISSION_RATE, List.filter, List.zipWith, List.getD]
  · norm_num [MinProfit.leB, bestOf, profitsOf, bestIdx, np_argmax, argmaxGo, candidates,
      afford, profit_open, profit_low, quantity_open, quantity_low, bar2020,
      BUY_COST_FACTOR, SELL_REVENUE_FACTOR, COMMISSION_RATE, List.filter, List.zipWith,
      List.getD]

/-- C8: each validation-error condition makes `validate_moves` return the
sentinel -1 at once, regardless of the remaining moves: an unparseable date
or quantity field, a move dated strictly before the current settlement
date, a missing bar for the (stock, date) pair, a quantity above the bar's
`Max_Quantity`, and a buy whose cost exceeds settled `daily_cash`; in
particular any two-entry list whose second date precedes its first yields
the sentinel. -/
theorem C8_validator_error_sentinel :
    (∀ (dict : List (String × List DayBar)) (init : ℚ) (cd : Option ℕ) (dc dr : ℚ)
      (mv : Move) (rest : List Move), mv.date = none →
      goV dict init cd dc dr (mv :: rest) = -1) ∧
    (∀ (dict : List (String × List DayBar)) (init : ℚ) (cd : Option ℕ) (dc dr : ℚ)
      (mv : Move) (rest : List Move), mv.quantity = none →
      goV dict init cd dc dr (mv :: rest) = -1) ∧
    (∀ (dict : List (String × List DayBar)) (init : ℚ) (c : ℕ) (dc dr : ℚ)
      (act stk : String) (md : ℕ) (q : ℤ) (rest : List Move), md < c →
      goV dict init (some c) dc dr (⟨some md, act, stk, some q⟩ :: rest) = -1) ∧
    (∀ (dict : List (String × List DayBar)) (init : ℚ) (cd : Option ℕ) (dc dr : ℚ)
      (act stk : String) (md : ℕ) (q : ℤ) (rest : List Move),
      lookupRow dict stk md = none →
      goV dict init cd dc dr (⟨some md, act, stk, some q⟩ :: rest) = -1) ∧
    (∀ (dict : List (String × List DayBar)) (init : ℚ) (cd : Option ℕ) (dc dr : ℚ)
      (act stk : String) (md : ℕ) (q : ℤ) (row : DayBar) (rest : List Move),
      lookupRow dict stk md = some row → row.Max_Quantity < q →
      goV dict init cd dc dr (⟨some md, act, stk, some q⟩ :: rest) = -1) ∧
    (∀ (dict : List (String × List DayBar)) (init : ℚ) (cd : Option ℕ) (dc dr : ℚ)
      (stk : String) (md : ℕ) (q : ℤ) (row : DayBar) (rest : List Move) (dc2 dr2 : ℚ),
      dateStep init cd dc dr md = some (md, dc2, dr2) →
      lookupRow dict stk md = some row → ¬ row.Max_Quantity < q →
      dc2 < row.Low * BUY_COST_FACTOR * (q : ℚ) →
      goV dict init cd dc dr (⟨some md, "buy-low", stk, some q⟩ :: rest) = -1) ∧
    (∀ (dict : List (String × List DayBar)) (init : ℚ) (cd : Option ℕ) (dc dr : ℚ)
      (stk : String) (md : ℕ) (q : ℤ) (row : DayBar) (rest : List Move) (dc2 dr2 : ℚ),
      dateStep init cd dc dr md = some (md, dc2, dr2) →
      lookupRow dict stk md = some row → ¬ row.Max_Quantity < q →
      dc2 < row.Open * BUY_COST_FACTOR * (q : ℚ) →
      goV dict init cd dc dr (⟨some md, "buy-open", stk, some q⟩ :: rest) = -1) ∧
    (∀ (dict : List (String × List DayBar)) (init : ℚ) (m1 m2 : Move) (d1 d2 : ℕ),
      m1.date = some d1 → m2.date = some d2 → d2 < d1 →
      validate_moves init [m1, m2] dict = -1) := by
  refine ⟨?_, ?_, ?_, ?_, ?_, ?_, ?_, ?_⟩
  · intro dict init cd dc dr mv rest hd
    cases hq : mv.quantity <;> simp [goV, hd, hq]
  · intro dict init cd dc dr mv rest hq
    cases hd : mv.date <;> simp [goV, hd, hq]
  · intro dict init c dc dr act stk md q rest h
    have hds : dateStep init (some c) dc dr md = none := by
      rw [dateStep]
      rw [if_neg (by omega), if_pos h]
    rw [goV]
    simp [hds]
  · intro dict init cd dc dr act stk md q rest hl
    rw [goV]
    rcases hds : dateStep init cd dc dr md with _ | ⟨c2, dc2, dr2⟩
    · simp [hds]
    · simp [hds, hl]
  · intro dict init cd dc dr act stk md q row rest hl hmq
    rw [goV]
    rcases hds : dateStep init cd dc dr md with _ | ⟨c2, dc2, dr2⟩
    · simp [hds]
    · simp only [hds, hl]
      rw [if_pos hmq]
  · intro dict init cd dc dr stk md q row rest dc2 dr2 hds hl hmq hins
    rw [goV]
    simp only [hds, hl]
    rw [if_neg hmq, if_pos trivial, if_pos hins]
  · intro dict init cd dc dr stk md q row rest dc2 dr2 hds hl hmq hins
    rw [goV]
    simp only [hds, hl]
    rw [if_neg hmq, if_neg (by decide : ¬ ("buy-open" = "buy-low")), if_pos trivial,
      if_pos hins]
  · intro dict init m1 m2 d1 d2 hd1 hd2 hdd
    obtain ⟨md1, a1, s1, mq1⟩ := m1
    obtain ⟨md2, a2, s2, mq2⟩ := m2
    have hd1' : md1 = some d1 := hd1
    have hd2' : md2 = some d2 := hd2
    subst hd1'
    subst hd2'
    have h2nd : ∀ X Y : ℚ, goV dict init (some d1) X Y [⟨some d2, a2, s2, mq2⟩] = -1 := by
      intro X Y
      have hds2 : dateStep init (some d1) X Y d2 = none := by
        rw [dateStep]
        rw [if_neg (by omega), if_pos hdd]
      cases mq2 with
      | none => simp [goV]
      | some q2 =>
        rw [goV]
        simp [hds2]
    rw [validate_moves]
    cases mq1 with
    | none => simp [goV]
    | some q1 =>
      rw [goV]
      simp only [dateStep_none]
      rcases hlk : lookupRow dict s1 d1 with _ | row
      · simp [hlk]
      · simp only [hlk]
        by_cases hmq : row.Max_Quantity < q1
        · rw [if_pos hmq]
        · rw [if_neg hmq]
          by_cases h1 : a1 = "buy-low"
          · rw [if_pos h1]
            by_cases hc : init < row.Low * BUY_COST_FACTOR * (q1 : ℚ)
            · rw [if_pos hc]
            · rw [if_neg hc]
              exact h2nd _ _
          · rw [if_neg h1]
            by_cases h2 : a1 = "buy-open"
            · rw [if_pos h2]
              by_cases hc : init < row.Open * BUY_COST_FACTOR * (q1 : ℚ)
              · rw [if_pos hc]
              · rw [if_neg hc]
                exact h2nd _ _
            · rw [if_neg h2]
              by_cases h3 : a1 = "sell-close"
              · rw [if_pos h3]
                exact h2nd _ _
              · rw [if_neg h3]
                by_cases h4 : a1 = "sell-high"
                · rw [if_pos h4]
                  exact h2nd _ _
                · rw [if_neg h4]
                  exact h2nd _ _

/-- C8 witness: concrete instances of the sentinel conditions, including
the two-entry chronology violation and the insufficient-cash buy. -/
theorem C8_witness :
    goV dict2020 1000 none 0 0 [⟨none, "buy-low", "X", some 1⟩] = -1 ∧
    goV dict2020 1000 none 0 0 [⟨some 20200101, "buy-low", "Y", some 1⟩] = -1 ∧
    validate_moves 1000 [⟨some 20200102, "buy-low", "X", some 1⟩,
      ⟨some 20200101, "buy-low", "X", some 1⟩] dict2020 = -1 ∧
    goV dict2020 100 none 0 0 [⟨some 20200101, "buy-low", "X", some 100⟩] = -1 := by
  refine ⟨?_, ?_, ?_, ?_⟩
  · exact C8_validator_error_sentinel.1 dict2020 1000 none 0 0 _ [] rfl
  · exact C8_validator_error_sentinel.2.2.2.1 dict2020 1000 none 0 0 "buy-low" "Y"
      20200101 1 [] rfl
  · exact C8_validator_error_sentinel.2.2.2.2.2.2.2 dict2020 1000 _ _ 20200102 20200101
      rfl rfl (by norm_num)
  · exact C8_validator_error_sentinel.2.2.2.2.2.1 dict2020 100 none 0 0 "X" 20200101 100
      bar2020 [] 100 0 (dateStep_none 100 0 0 20200101) rfl
      (by norm_num [bar2020])
      (by norm_num [bar2020, BUY_COST_FACTOR, COMMISSION_RATE])

/-- C9: validator accounting: an empty remainder returns `daily_cash +
daily_revenue` (unsettled final-day revenue included); a strictly later
move date settles revenue into cash; an equal date leaves the state
unchanged; buys debit settled `daily_cash` immediately by
`price * BUY_COST_FACTOR * quantity`; sells credit
`price * SELL_REVENUE_FACTOR * quantity` to `daily_revenue`, not to
`daily_cash`. -/
theorem C9_validator_accounting :
    (∀ (dict : List (String × List DayBar)) (init : ℚ) (cd : Option ℕ) (dc dr : ℚ),
      goV dict init cd dc dr [] = dc + dr) ∧
    (∀ (init : ℚ) (c d : ℕ) (dc dr : ℚ), c < d →
      dateStep init (some c) dc dr d = some (d, dc + dr, 0)) ∧
    (∀ (init : ℚ) (d : ℕ) (dc dr : ℚ), dateStep init (some d) dc dr d = some (d, dc, dr)) ∧
    (∀ (dict : List (String × List DayBar)) (init : ℚ) (cd : Option ℕ) (dc dr : ℚ)
      (stk : String) (md : ℕ) (q : ℤ) (row : DayBar) (rest : List Move) (dc2 dr2 : ℚ),
      dateStep init cd dc dr md = some (md, dc2, dr2) →
      lookupRow dict stk md = some row → ¬ row.Max_Quantity < q →
      ¬ dc2 < row.Low * BUY_COST_FACTOR * (q : ℚ) →
      goV dict init cd dc dr (⟨some md, "buy-low", stk, some q⟩ :: rest) =
        goV dict init (some md) (dc2 - row.Low * BUY_COST_FACTOR * (q : ℚ)) dr2 rest) ∧
    (∀ (dict : List (String × List DayBar)) (init : ℚ) (cd : Option ℕ) (dc dr : ℚ)
      (stk : String) (md : ℕ) (q : ℤ) (row : DayBar) (rest : List Move) (dc2 dr2 : ℚ),
      dateStep init cd dc dr md = some (md, dc2, dr2) →
      lookupRow dict stk md = some row → ¬ row.Max_Quantity < q →
      ¬ dc2 < row.Open * BUY_COST_FACTOR * (q : ℚ) →
      goV dict init cd dc dr (⟨some md, "buy-open", stk, some q⟩ :: rest) =
        goV dict init (some md) (dc2 - row.Open * BUY_COST_FACTOR * (q : ℚ)) dr2 rest) ∧
    (∀ (dict : List (String × List DayBar)) (init : ℚ) (cd : Option ℕ) (dc dr : ℚ)
      (stk : String) (md : ℕ) (q : ℤ) (row : DayBar) (rest : List Move) (dc2 dr2 : ℚ),
      dateStep init cd dc dr md = some (md, dc2, dr2) →
      lookupRow dict stk md = some row → ¬ row.Max_Quantity < q →
      goV dict init cd dc dr (⟨some md, "sell-close", stk, some q⟩ :: rest) =
        goV dict init (some md) dc2 (dr2 + row.Close * SELL_REVENUE_FACTOR * (q : ℚ)) rest) ∧
    (∀ (dict : List (String × List DayBar)) (init : ℚ) (cd : Option ℕ) (dc dr : ℚ)
      (stk : String) (md : ℕ) (q : ℤ) (row : DayBar) (rest : List Move) (dc2 dr2 : ℚ),
      dateStep init cd dc dr md = some (md, dc2, dr2) →
      lookupRow dict stk md = some row → ¬ row.Max_Quantity < q →
      goV dict init cd dc dr (⟨some md, "sell-high", stk, some q⟩ :: rest) =
        goV dict init (some md) dc2 (dr2 + row.High * SELL_REVENUE_FACTOR * (q : ℚ)) rest) := by
  refine ⟨?_, ?_, ?_, ?_, ?_, ?_, ?_⟩
  · intro dict init cd dc dr
    rfl
  · intro init c d dc dr h
    exact dateStep_settle init dc dr h
  · intro init d dc dr
    exact dateStep_self init d dc dr
  · intro dict init cd dc dr stk md q row rest dc2 dr2 hds hl hmq hins
    rw [goV]
    simp only [hds, hl]
    rw [if_neg hmq, if_pos trivial, if_neg hins]
  · intro dict init cd dc dr stk md q row rest dc2 dr2 hds hl hmq hins
    rw [goV]
    simp only [hds, hl]
    rw [if_neg hmq, if_neg (by decide : ¬ ("buy-open" = "buy-low")), if_pos trivial,
      if_neg hins]
  · intro dict init cd dc dr stk md q row rest dc2 dr2 hds hl hmq
    rw [goV]
    simp only [hds, hl]
    rw [if_neg hmq, if_neg (by decide : ¬ ("sell-close" = "buy-low")),
      if_neg (by decide : ¬ ("sell-close" = "buy-open")), if_pos trivial]
  · intro dict init cd dc dr stk md q row rest dc2 dr2 hds hl hmq
    rw [goV]
    simp only [hds, hl]
    rw [if_neg hmq, if_neg (by decide : ¬ ("sell-high" = "buy-low")),
      if_neg (by decide : ¬ ("sell-high" = "buy-open")),
      if_neg (by decide : ¬ ("sell-high" = "sell-close")), if_pos trivial]

/-- C9 witness: concrete instances of the accounting steps. -/
theorem C9_witness :
    goV dict2020 1000 none 2 3 [] = 2 + 3 ∧
    dateStep (1000 : ℚ) (some 1) 2 3 7 = some (7, 2 + 3, 0) ∧
    goV dict2020 1000 none 0 0 [⟨some 20200101, "buy-low", "X", some 100⟩] =
      goV dict2020 1000 (some 20200101)
        (1000 - bar2020.Low * BUY_COST_FACTOR * (100 : ℚ)) 0 [] ∧
    goV dict2020 1000 none 0 0 [⟨some 20200101, "sell-close", "X", some 100⟩] =
      goV dict2020 1000 (some 20200101) 1000
        (0 + bar2020.Close * SELL_REVENUE_FACTOR * (100 : ℚ)) [] := by
  refine ⟨C9_validator_accounting.1 dict2020 1000 none 2 3,
    C9_validator_accounting.2.1 1000 1 7 2 3 (by norm_num), ?_, ?_⟩
  · exact C9_validator_accounting.2.2.2.1 dict2020 1000 none 0 0 "X" 20200101 100 bar2020
      [] 1000 0 (dateStep_none 1000 0 0 20200101) rfl
      (by norm_num [bar2020])
      (by norm_num [bar2020, BUY_COST_FACTOR, COMMISSION_RATE])
  · exact C9_validator_accounting.2.2.2.2.2.1 dict2020 1000 none 0 0 "X" 20200101 100
      bar2020 [] 1000 0 (dateStep_none 1000 0 0 20200101) rfl
      (by norm_num [bar2020])

/-- C10: on an empty move list `validate_moves` never initializes
`current_date`, so it returns `daily_cash + daily_revenue = 0.0` rather
than `initial_cash`; hence the orchestration's success check
`validated != -1 and |final - validated| < 0.01` reports failure for any
no-move run whose initial cash is at least 0.01. -/
theorem C10_empty_moves_validation_gap (init : ℚ) (dict : List (String × List DayBar)) :
    validate_moves init [] dict = 0 ∧
    (1 / 100 ≤ init → validation_success init (validate_moves init [] dict) = false) := by
  have h0 : validate_moves init [] dict = 0 := by
    rw [validate_moves]
    show (0 : ℚ) + 0 = 0
    norm_num
  refine ⟨h0, ?_⟩
  intro h
  rw [h0]
  have habs : ¬ (|init - (0 : ℚ)| < 1 / 100) := by
    rw [sub_zero, abs_of_nonneg (by linarith)]
    linarith
  have hdec : (decide (|init - (0 : ℚ)| < 1 / 100)) = false := decide_eq_false habs
  rw [validation_success, hdec, Bool.and_false]

/-- C10 witness: with the default-style initial cash 1000 the empty run
validates to 0 and the orchestration criterion reports failure. -/
theorem C10_witness : validate_moves 1000 [] dict2020 = 0 ∧
    validation_success 1000 (validate_moves 1000 [] dict2020) = false := by
  have h := C10_empty_moves_validation_gap 1000 dict2020
  exact ⟨h.1, h.2 (by norm_num)⟩

end Trading
